import Mathlib

/-!
Shallow embedding of the StateFi protocol program
(src/programs/statefi-protocol/src/lib.rs).

The program is an Anchor/Solana on-ledger bridge between off-chain fiat and
SPL tokens.  We embed:

* account record types (`ProtocolConfig`, `UserProfile`, `Vault`,
  `TokenWhitelist`, `FiatDeposit`, `FiatWithdrawal`, SPL `TokenAccount`)
  as Lean structures with the source's field names;
* program-derived addresses as an inductive `Addr` type, so that the
  deterministic seeds-based addressing (`seeds = [b"vault", owner]`, etc.)
  becomes constructor application and its injectivity is constructor
  injectivity;
* the on-chain account space as association lists keyed by `Addr`, one list
  per record type (Anchor's discriminator check means an
  `Account<'info, T>` only deserializes records of type `T`);
* each instruction as an `Except`-valued state transformer that performs
  Anchor's account-constraint checks in struct-field order and then the
  handler body, exactly as in the source.  A Solana transaction that errors
  commits nothing, which the `Except` result models: an `Except.error`
  carries no successor state.
* SPL `token::transfer` as `token_transfer`: checked balance movement
  between two token accounts (u64 amounts, checked add/sub, mint equality,
  self-transfer as a no-op), per the SPL token program.  The CPI
  signer-authority plumbing is out of the embedding's scope, as in the
  specification ("out of scope: ... signer plumbing").

Machine integers are `Nat` with explicit bounds: `u64Lim = 2^64`,
`u128Lim = 2^128`; `checked_mul`/`checked_div`/`checked_sub` return
`Option`, an `unwrap` of `none` aborts the instruction, and the Rust
`as u64` narrowing is `% u64Lim`.
-/

namespace StateFi

def u64Lim : Nat := 2 ^ 64

def u128Lim : Nat := 2 ^ 128

/-- Addresses (Solana `Pubkey`s).  `ext n` is an externally generated key
(wallets, mints, token accounts); the other constructors are the program's
derived addresses, one per `seeds = [...]` scheme in the source. -/
inductive Addr where
  | ext : Nat → Addr
  | configPda : Addr
  | profilePda : Addr → Addr
  | vaultPda : Addr → Addr
  | whitelistPda : Addr → Addr
  | depositPda : Addr → String → Addr
  | withdrawalPda : Addr → Addr → String → Addr
deriving DecidableEq, Repr

/-- The `ProtocolConfig` account (bump bookkeeping omitted: the embedding
replaces bump-seed plumbing with the `Addr` constructors). -/
structure ProtocolConfig where
  admin : Addr
  admin_fee_basis_points : Nat
deriving DecidableEq, Repr

/-- The `UserProfile` account. -/
structure UserProfile where
  owner : Addr
  name : String
  email : String
  is_kyc_verified : Bool
  created_at : Int
deriving DecidableEq, Repr

/-- The `Vault` account. -/
structure Vault where
  owner : Addr
  created_at : Int
deriving DecidableEq, Repr

/-- The `TokenWhitelist` account. -/
structure TokenWhitelist where
  mint : Addr
  symbol : String
  name : String
  is_stable : Bool
  is_active : Bool
  created_at : Int
deriving DecidableEq, Repr

/-- Enum `DepositStatus` from the source. -/
inductive DepositStatus where
  | Pending
  | Completed
  | Rejected
deriving DecidableEq, Repr

/-- Enum `WithdrawalStatus` from the source. -/
inductive WithdrawalStatus where
  | Pending
  | Completed
  | Cancelled
deriving DecidableEq, Repr

/-- The `FiatDeposit` account. -/
structure FiatDeposit where
  user : Addr
  mint : Addr
  amount : Nat
  reference_id : String
  status : DepositStatus
  created_at : Int
  updated_at : Int
  bump : Nat
deriving DecidableEq, Repr

/-- The `FiatWithdrawal` account. -/
structure FiatWithdrawal where
  user : Addr
  mint : Addr
  amount : Nat
  reference_id : String
  status : WithdrawalStatus
  created_at : Int
  updated_at : Int
  bump : Nat
deriving DecidableEq, Repr

/-- An SPL token account (`anchor_spl::token::TokenAccount`): owner
authority, mint, and u64 balance. -/
structure TokenAccount where
  owner : Addr
  mint : Addr
  amount : Nat
deriving DecidableEq, Repr

/-- Enum `StateFiError` from the source, same variants. -/
inductive StateFiError where
  | InvalidFeeBasisPoints
  | Unauthorized
  | InvalidDepositStatus
  | InvalidWithdrawalStatus
  | InvalidAmount
  | StringTooLong
  | InvalidVaultOwner
  | InvalidTokenAccountOwner
  | InvalidMint
  | TokenNotActive
  | InsufficientFunds
  | InvalidOwner
deriving DecidableEq, Repr

/-- An instruction failure: either one of the program's own error codes, or
a runtime-level failure (missing account, `init` on an occupied slot, an
SPL token-program error, or an aborted `unwrap`). -/
inductive ProgErr where
  | program : StateFiError → ProgErr
  | accountNotFound
  | accountAlreadyInUse
  | splMintMismatch
  | splInsufficientFunds
  | splOverflow
  | unwrapPanic
deriving DecidableEq, Repr

/-- First-match association-list lookup (newest record first; updates cons
a shadowing entry). -/
def alookup {α β : Type} [DecidableEq α] : List (α × β) → α → Option β
  | [], _ => none
  | (k, v) :: rest, key => if key = k then some v else alookup rest key

/-- The on-chain state visible to the program: the singleton config, one
association list per program account type, the SPL token accounts, and the
set of existing mints.  Token accounts and mints are provisioned by the
SPL token program, outside this program's instruction surface. -/
structure Chain where
  config : Option ProtocolConfig
  profiles : List (Addr × UserProfile)
  vaults : List (Addr × Vault)
  whitelist : List (Addr × TokenWhitelist)
  deposits : List (Addr × FiatDeposit)
  withdrawals : List (Addr × FiatWithdrawal)
  tokenAccounts : List (Addr × TokenAccount)
  mints : List Addr
deriving DecidableEq, Repr

/-- Extract a required account; a missing or wrongly typed account aborts
the instruction before the handler runs. -/
def getE {α : Type} (o : Option α) (e : ProgErr) : Except ProgErr α :=
  match o with
  | some a => Except.ok a
  | none => Except.error e

/-- A `require!`-style check (also used for Anchor `constraint = ...`). -/
def guardE (b : Prop) [Decidable b] (e : ProgErr) : Except ProgErr Unit :=
  if b then Except.ok () else Except.error e

/-- u128 `checked_mul`. -/
def checked_mul_u128 (a b : Nat) : Option Nat :=
  if a * b < u128Lim then some (a * b) else none

/-- u128 `checked_div`. -/
def checked_div_u128 (a b : Nat) : Option Nat :=
  if b = 0 then none else some (a / b)

/-- u64 `checked_sub`. -/
def checked_sub_u64 (a b : Nat) : Option Nat :=
  if b ≤ a then some (a - b) else none

/-- The fee computation of `complete_fiat_deposit`, verbatim: if the rate
is positive, widen to u128, `checked_mul` by the basis points, `checked_div`
by 10000, then narrow with `as u64` (truncation, i.e. `% 2^64`); otherwise
zero.  `none` means an `unwrap` would abort. -/
def fee_amount_calc (amount fee_bps : Nat) : Option Nat :=
  if fee_bps > 0 then
    match checked_mul_u128 amount fee_bps with
    | none => none
    | some p =>
      match checked_div_u128 p 10000 with
      | none => none
      | some q => some (q % u64Lim)
  else some 0

/-- SPL `token::transfer`: both accounts must exist and share a mint, the
source must cover the amount; a self-transfer is validated but moves
nothing; otherwise the destination's `checked_add` must not overflow u64.
Updated balances are consed (shadowing) onto the account list. -/
def token_transfer (tas : List (Addr × TokenAccount)) (src dst : Addr)
    (amt : Nat) : Except ProgErr (List (Addr × TokenAccount)) := do
  let sa ← getE (alookup tas src) ProgErr.accountNotFound
  let da ← getE (alookup tas dst) ProgErr.accountNotFound
  _ ← guardE (sa.mint = da.mint) ProgErr.splMintMismatch
  _ ← guardE (amt ≤ sa.amount) ProgErr.splInsufficientFunds
  if src = dst then
    pure tas
  else do
    _ ← guardE (da.amount + amt < u64Lim) ProgErr.splOverflow
    pure ((src, { sa with amount := sa.amount - amt }) ::
          (dst, { da with amount := da.amount + amt }) :: tas)

/-- Instruction `initialize_protocol` (lib.rs:12-28): `init` the singleton config (slot
must be free), then `require!(admin_fee_basis_points <= 10000)`, then bind
the signer as admin. -/
def initialize_protocol (s : Chain) (admin : Addr) (admin_fee_basis_points : Nat) :
    Except ProgErr Chain := do
  _ ← guardE (s.config = none) ProgErr.accountAlreadyInUse
  _ ← guardE (admin_fee_basis_points ≤ 10000)
      (ProgErr.program StateFiError.InvalidFeeBasisPoints)
  pure { s with config := some ⟨admin, admin_fee_basis_points⟩ }

/-- Instruction `create_user_profile` (lib.rs:31-49): `init` the profile PDA keyed by
the signer, then length checks, then initialize the record with
`is_kyc_verified = false`. -/
def create_user_profile (s : Chain) (user : Addr) (name email : String)
    (now : Int) : Except ProgErr Chain := do
  _ ← guardE (alookup s.profiles (Addr.profilePda user) = none)
      ProgErr.accountAlreadyInUse
  _ ← guardE (name.length ≤ 50) (ProgErr.program StateFiError.StringTooLong)
  _ ← guardE (email.length ≤ 100) (ProgErr.program StateFiError.StringTooLong)
  pure { s with profiles :=
    (Addr.profilePda user, ⟨user, name, email, false, now⟩) :: s.profiles }

/-- Instruction `create_vault` (lib.rs:52-60, accounts lib.rs:301-323): the signer's
profile PDA must exist and satisfy `user.key() == user_profile.owner`
(else `InvalidOwner`), then `init` the vault PDA keyed by the profile
owner. -/
def create_vault (s : Chain) (user : Addr) (now : Int) : Except ProgErr Chain := do
  let prof ← getE (alookup s.profiles (Addr.profilePda user)) ProgErr.accountNotFound
  _ ← guardE (user = prof.owner) (ProgErr.program StateFiError.InvalidOwner)
  _ ← guardE (alookup s.vaults (Addr.vaultPda prof.owner) = none)
      ProgErr.accountAlreadyInUse
  pure { s with vaults :=
    (Addr.vaultPda prof.owner, ⟨prof.owner, now⟩) :: s.vaults }

/-- Instruction `whitelist_token` (lib.rs:63-83, accounts lib.rs:325-349): config must
exist with `has_one = admin` (else `Unauthorized`), the mint must exist,
the whitelist PDA keyed by the mint must be free, then length checks, then
the record is created `is_active = true`. -/
def whitelist_token (s : Chain) (signer mint : Addr) (symbol name : String)
    (is_stable : Bool) (now : Int) : Except ProgErr Chain := do
  let cfg ← getE s.config ProgErr.accountNotFound
  _ ← guardE (signer = cfg.admin) (ProgErr.program StateFiError.Unauthorized)
  _ ← guardE (mint ∈ s.mints) ProgErr.accountNotFound
  _ ← guardE (alookup s.whitelist (Addr.whitelistPda mint) = none)
      ProgErr.accountAlreadyInUse
  _ ← guardE (symbol.length ≤ 10) (ProgErr.program StateFiError.StringTooLong)
  _ ← guardE (name.length ≤ 50) (ProgErr.program StateFiError.StringTooLong)
  pure { s with whitelist :=
    (Addr.whitelistPda mint, ⟨mint, symbol, name, is_stable, true, now⟩) :: s.whitelist }

/-- Instruction `initiate_fiat_deposit` (lib.rs:86-106, accounts lib.rs:351-375): the
caller passes any `UserProfile` account, a mint, and any `TokenWhitelist`
account (no seeds tie it to the mint and no `is_active` constraint); the
deposit PDA is keyed by the signer and `reference_id` and must be free; the
two (otherwise unconstrained) token accounts must exist.  Handler:
`amount > 0`, `reference_id` length at most 100, then the record is created
Pending with `user = user_profile.owner`.  No token movement. -/
def initiate_fiat_deposit (s : Chain) (user profileAddr mint wlAddr uta tta : Addr)
    (amount : Nat) (reference_id : String) (now : Int) : Except ProgErr Chain := do
  let prof ← getE (alookup s.profiles profileAddr) ProgErr.accountNotFound
  _ ← guardE (mint ∈ s.mints) ProgErr.accountNotFound
  let _wl ← getE (alookup s.whitelist wlAddr) ProgErr.accountNotFound
  _ ← guardE (alookup s.deposits (Addr.depositPda user reference_id) = none)
      ProgErr.accountAlreadyInUse
  let _uAcc ← getE (alookup s.tokenAccounts uta) ProgErr.accountNotFound
  let _tAcc ← getE (alookup s.tokenAccounts tta) ProgErr.accountNotFound
  _ ← guardE (amount > 0) (ProgErr.program StateFiError.InvalidAmount)
  _ ← guardE (reference_id.length ≤ 100) (ProgErr.program StateFiError.StringTooLong)
  pure { s with deposits :=
    (Addr.depositPda user reference_id,
      ⟨prof.owner, mint, amount, reference_id, DepositStatus.Pending, now, now, 0⟩)
      :: s.deposits }

/-- Instruction `complete_fiat_deposit` (lib.rs:109-177, accounts lib.rs:377-419):
config with `has_one = admin`; any `FiatDeposit` account; the vault PDA of
the deposit's user; the vault token account (owned by the vault PDA, mint
matching the deposit); the treasury token account (mint matching); the
admin token account (mint matching, owned by the admin).  Handler: status
must be Pending, the vault owner must equal the deposit's user, fee split
via `fee_amount_calc` and `checked_sub` (an `unwrap` of `none` aborts),
transfer `user_amount` treasury to vault, and transfer `fee_amount`
treasury to admin only when `fee_amount > 0`; finally the record is marked
Completed with `updated_at = now`. -/
def complete_fiat_deposit (s : Chain) (signer depAddr vta tta ata : Addr)
    (now : Int) : Except ProgErr Chain := do
  let cfg ← getE s.config ProgErr.accountNotFound
  _ ← guardE (signer = cfg.admin) (ProgErr.program StateFiError.Unauthorized)
  let dep ← getE (alookup s.deposits depAddr) ProgErr.accountNotFound
  let vault ← getE (alookup s.vaults (Addr.vaultPda dep.user)) ProgErr.accountNotFound
  let vtaAcc ← getE (alookup s.tokenAccounts vta) ProgErr.accountNotFound
  _ ← guardE (vtaAcc.owner = Addr.vaultPda dep.user)
      (ProgErr.program StateFiError.InvalidTokenAccountOwner)
  _ ← guardE (vtaAcc.mint = dep.mint) (ProgErr.program StateFiError.InvalidMint)
  let ttaAcc ← getE (alookup s.tokenAccounts tta) ProgErr.accountNotFound
  _ ← guardE (ttaAcc.mint = dep.mint) (ProgErr.program StateFiError.InvalidMint)
  let ataAcc ← getE (alookup s.tokenAccounts ata) ProgErr.accountNotFound
  _ ← guardE (ataAcc.mint = dep.mint) (ProgErr.program StateFiError.InvalidMint)
  _ ← guardE (ataAcc.owner = cfg.admin)
      (ProgErr.program StateFiError.InvalidTokenAccountOwner)
  _ ← guardE (dep.status = DepositStatus.Pending)
      (ProgErr.program StateFiError.InvalidDepositStatus)
  _ ← guardE (vault.owner = dep.user) (ProgErr.program StateFiError.InvalidVaultOwner)
  let fee ← getE (fee_amount_calc dep.amount cfg.admin_fee_basis_points)
      ProgErr.unwrapPanic
  let user_amount ← getE (checked_sub_u64 dep.amount fee) ProgErr.unwrapPanic
  let tas1 ← token_transfer s.tokenAccounts tta vta user_amount
  let tas2 ← if fee > 0 then token_transfer tas1 tta ata fee else pure tas1
  pure { s with tokenAccounts := tas2,
                deposits := (depAddr,
                  { dep with status := DepositStatus.Completed, updated_at := now })
                  :: s.deposits }

/-- Instruction `initiate_fiat_withdrawal` (lib.rs:180-211, accounts lib.rs:421-478):
the signer's profile PDA; the vault PDA of the profile owner; the
whitelist PDA of the mint with `constraint = token_whitelist.is_active`
(else `TokenNotActive`); the mint; the vault token account (owned by the
vault PDA, mint matching, balance at least `amount` else
`InsufficientFunds`); the treasury token account (mint matching); the
withdrawal PDA keyed by (signer, mint, reference_id), slot free.  Handler:
`amount > 0`, length check, escrow transfer vault to treasury, then the
record is created Pending. -/
def initiate_fiat_withdrawal (s : Chain) (user mint vta tta : Addr)
    (amount : Nat) (reference_id : String) (now : Int) : Except ProgErr Chain := do
  let prof ← getE (alookup s.profiles (Addr.profilePda user)) ProgErr.accountNotFound
  let _vault ← getE (alookup s.vaults (Addr.vaultPda prof.owner)) ProgErr.accountNotFound
  let wl ← getE (alookup s.whitelist (Addr.whitelistPda mint)) ProgErr.accountNotFound
  _ ← guardE (wl.is_active = true) (ProgErr.program StateFiError.TokenNotActive)
  _ ← guardE (mint ∈ s.mints) ProgErr.accountNotFound
  let vtaAcc ← getE (alookup s.tokenAccounts vta) ProgErr.accountNotFound
  _ ← guardE (vtaAcc.owner = Addr.vaultPda prof.owner)
      (ProgErr.program StateFiError.InvalidTokenAccountOwner)
  _ ← guardE (vtaAcc.mint = mint) (ProgErr.program StateFiError.InvalidMint)
  _ ← guardE (amount ≤ vtaAcc.amount) (ProgErr.program StateFiError.InsufficientFunds)
  let ttaAcc ← getE (alookup s.tokenAccounts tta) ProgErr.accountNotFound
  _ ← guardE (ttaAcc.mint = mint) (ProgErr.program StateFiError.InvalidMint)
  _ ← guardE (alookup s.withdrawals (Addr.withdrawalPda user mint reference_id) = none)
      ProgErr.accountAlreadyInUse
  _ ← guardE (amount > 0) (ProgErr.program StateFiError.InvalidAmount)
  _ ← guardE (reference_id.length ≤ 100) (ProgErr.program StateFiError.StringTooLong)
  let tas1 ← token_transfer s.tokenAccounts vta tta amount
  pure { s with tokenAccounts := tas1,
                withdrawals := (Addr.withdrawalPda user mint reference_id,
                  ⟨prof.owner, mint, amount, reference_id, WithdrawalStatus.Pending,
                   now, now, 0⟩) :: s.withdrawals }

/-- Instruction `complete_fiat_withdrawal` (lib.rs:214-229, accounts lib.rs:480-494):
config with `has_one = admin`; any `FiatWithdrawal` account.  Handler:
status must be Pending (else `InvalidWithdrawalStatus`), then the record is
marked Completed with `updated_at = now`.  No token movement. -/
def complete_fiat_withdrawal (s : Chain) (signer wAddr : Addr) (now : Int) :
    Except ProgErr Chain := do
  let cfg ← getE s.config ProgErr.accountNotFound
  _ ← guardE (signer = cfg.admin) (ProgErr.program StateFiError.Unauthorized)
  let w ← getE (alookup s.withdrawals wAddr) ProgErr.accountNotFound
  _ ← guardE (w.status = WithdrawalStatus.Pending)
      (ProgErr.program StateFiError.InvalidWithdrawalStatus)
  pure { s with withdrawals :=
    (wAddr, { w with status := WithdrawalStatus.Completed, updated_at := now })
      :: s.withdrawals }

/-- Instruction `cancel_fiat_withdrawal` (lib.rs:232-264, accounts lib.rs:496-531):
config with `has_one = admin`; any `FiatWithdrawal` account; the vault PDA
of the withdrawal's user; the vault token account (owned by that vault PDA,
mint matching the withdrawal); the treasury token account (mint matching).
Handler: status must be Pending, refund transfer of the recorded
`fiat_withdrawal.amount` treasury to vault, then the record is marked
Cancelled with `updated_at = now`. -/
def cancel_fiat_withdrawal (s : Chain) (signer wAddr vta tta : Addr) (now : Int) :
    Except ProgErr Chain := do
  let cfg ← getE s.config ProgErr.accountNotFound
  _ ← guardE (signer = cfg.admin) (ProgErr.program StateFiError.Unauthorized)
  let w ← getE (alookup s.withdrawals wAddr) ProgErr.accountNotFound
  let _vault ← getE (alookup s.vaults (Addr.vaultPda w.user)) ProgErr.accountNotFound
  let vtaAcc ← getE (alookup s.tokenAccounts vta) ProgErr.accountNotFound
  _ ← guardE (vtaAcc.owner = Addr.vaultPda w.user)
      (ProgErr.program StateFiError.InvalidTokenAccountOwner)
  _ ← guardE (vtaAcc.mint = w.mint) (ProgErr.program StateFiError.InvalidMint)
  let ttaAcc ← getE (alookup s.tokenAccounts tta) ProgErr.accountNotFound
  _ ← guardE (ttaAcc.mint = w.mint) (ProgErr.program StateFiError.InvalidMint)
  _ ← guardE (w.status = WithdrawalStatus.Pending)
      (ProgErr.program StateFiError.InvalidWithdrawalStatus)
  let tas1 ← token_transfer s.tokenAccounts tta vta w.amount
  pure { s with tokenAccounts := tas1,
                withdrawals := (wAddr,
                  { w with status := WithdrawalStatus.Cancelled, updated_at := now })
                  :: s.withdrawals }

/-- The program's instruction surface as a single type, for reachability
statements. -/
inductive Op where
  | initialize_protocol (admin : Addr) (fee_bps : Nat)
  | create_user_profile (user : Addr) (name email : String)
  | create_vault (user : Addr)
  | whitelist_token (signer mint : Addr) (symbol name : String) (is_stable : Bool)
  | initiate_fiat_deposit (user profileAddr mint wlAddr uta tta : Addr)
      (amount : Nat) (reference_id : String)
  | complete_fiat_deposit (signer depAddr vta tta ata : Addr)
  | initiate_fiat_withdrawal (user mint vta tta : Addr) (amount : Nat)
      (reference_id : String)
  | complete_fiat_withdrawal (signer wAddr : Addr)
  | cancel_fiat_withdrawal (signer wAddr vta tta : Addr)
deriving DecidableEq, Repr

/-- One instruction execution at ledger time `now`. -/
def step (s : Chain) (now : Int) : Op → Except ProgErr Chain
  | Op.initialize_protocol admin feeBps => initialize_protocol s admin feeBps
  | Op.create_user_profile user name email => create_user_profile s user name email now
  | Op.create_vault user => create_vault s user now
  | Op.whitelist_token signer mint symbol name isStable =>
      whitelist_token s signer mint symbol name isStable now
  | Op.initiate_fiat_deposit user profileAddr mint wlAddr uta tta amount ref =>
      initiate_fiat_deposit s user profileAddr mint wlAddr uta tta amount ref now
  | Op.complete_fiat_deposit signer depAddr vta tta ata =>
      complete_fiat_deposit s signer depAddr vta tta ata now
  | Op.initiate_fiat_withdrawal user mint vta tta amount ref =>
      initiate_fiat_withdrawal s user mint vta tta amount ref now
  | Op.complete_fiat_withdrawal signer wAddr => complete_fiat_withdrawal s signer wAddr now
  | Op.cancel_fiat_withdrawal signer wAddr vta tta =>
      cancel_fiat_withdrawal s signer wAddr vta tta now

/-- States reachable from a program-empty initial state (no config, no
program records; token accounts and mints may pre-exist, since they are
provisioned by the SPL token program outside this program's surface)
through the instruction surface. -/
inductive Reachable : Chain → Prop where
  | init (tas : List (Addr × TokenAccount)) (mints : List Addr) :
      Reachable ⟨none, [], [], [], [], [], tas, mints⟩
  | step (s s' : Chain) (now : Int) (op : Op) :
      Reachable s → step s now op = Except.ok s' → Reachable s'

/-! ### Inversion toolkit for `Except`-valued instruction bodies -/

@[simp] theorem ok_bind {ε α β : Type} (a : α) (f : α → Except ε β) :
    (Except.ok a >>= f) = f a := rfl

@[simp] theorem error_bind {ε α β : Type} (e : ε) (f : α → Except ε β) :
    ((Except.error e : Except ε α) >>= f) = Except.error e := rfl

@[simp] theorem bind_ok_iff {ε α β : Type} {x : Except ε α} {f : α → Except ε β} {c : β} :
    (x >>= f = Except.ok c) ↔ ∃ a, x = Except.ok a ∧ f a = Except.ok c := by
  cases x <;> simp [ok_bind, error_bind]

@[simp] theorem getE_some {α : Type} (a : α) (e : ProgErr) :
    getE (some a) e = Except.ok a := rfl

@[simp] theorem getE_none {α : Type} (e : ProgErr) :
    getE (none : Option α) e = Except.error e := rfl

@[simp] theorem getE_ok_iff {α : Type} {o : Option α} {e : ProgErr} {a : α} :
    (getE o e = Except.ok a) ↔ o = some a := by
  cases o <;> simp [getE]

@[simp] theorem guardE_ok_iff {b : Prop} [Decidable b] {e : ProgErr} {u : Unit} :
    (guardE b e = Except.ok u) ↔ b := by
  cases u
  unfold guardE
  split <;> simp [*]

theorem guardE_pos {b : Prop} [Decidable b] {e : ProgErr} (h : b) :
    guardE b e = Except.ok () := by
  simp [guardE, h]

theorem guardE_neg {b : Prop} [Decidable b] {e : ProgErr} (h : ¬b) :
    guardE b e = Except.error e := by
  simp [guardE, h]

@[simp] theorem pure_ok_iff {ε α : Type} {a c : α} :
    ((pure a : Except ε α) = Except.ok c) ↔ a = c := by
  constructor
  · intro h
    exact Except.ok.inj h
  · intro h
    exact congrArg Except.ok h

theorem ite_ok_iff {ε α : Type} {b : Prop} [Decidable b] {x y : Except ε α} {c : α} :
    ((if b then x else y) = Except.ok c) ↔
      (b ∧ x = Except.ok c) ∨ (¬b ∧ y = Except.ok c) := by
  split <;> simp [*]

@[simp] theorem alookup_nil {α β : Type} [DecidableEq α] (k : α) :
    alookup ([] : List (α × β)) k = none := rfl

@[simp] theorem alookup_cons {α β : Type} [DecidableEq α] (k k' : α) (v : β)
    (l : List (α × β)) :
    alookup ((k, v) :: l) k' = if k' = k then some v else alookup l k' := rfl

/-- Success inversion for `complete_fiat_withdrawal`: the caller is the
bound admin, the record was Pending, and the only change is the record's
status and `updated_at`. -/
theorem complete_fiat_withdrawal_inv {s : Chain} {signer wAddr : Addr} {now : Int}
    {s' : Chain}
    (hok : complete_fiat_withdrawal s signer wAddr now = Except.ok s') :
    ∃ cfg w, s.config = some cfg ∧ signer = cfg.admin ∧
      alookup s.withdrawals wAddr = some w ∧ w.status = WithdrawalStatus.Pending ∧
      s' = { s with withdrawals :=
        (wAddr, { w with status := WithdrawalStatus.Completed, updated_at := now })
          :: s.withdrawals } := by
  unfold complete_fiat_withdrawal at hok
  simp only [bind_ok_iff, getE_ok_iff, guardE_ok_iff, pure_ok_iff, exists_const] at hok
  obtain ⟨cfg, hcfg, hadm, w, hw, hst, hs'⟩ := hok
  exact ⟨cfg, w, hcfg, hadm, hw, hst, hs'.symm⟩

/-- Success inversion for `token_transfer`. -/
theorem token_transfer_inv {tas : List (Addr × TokenAccount)} {src dst : Addr}
    {amt : Nat} {tas' : List (Addr × TokenAccount)}
    (hok : token_transfer tas src dst amt = Except.ok tas') :
    ∃ sa da, alookup tas src = some sa ∧ alookup tas dst = some da ∧
      sa.mint = da.mint ∧ amt ≤ sa.amount ∧
      ((src = dst ∧ tas' = tas) ∨
       (src ≠ dst ∧ da.amount + amt < u64Lim ∧
        tas' = (src, { sa with amount := sa.amount - amt }) ::
               (dst, { da with amount := da.amount + amt }) :: tas)) := by
  unfold token_transfer at hok
  simp only [bind_ok_iff, getE_ok_iff, guardE_ok_iff, pure_ok_iff, ite_ok_iff,
    exists_const] at hok
  obtain ⟨sa, hsa, da, hda, hmint, hamt, hcase⟩ := hok
  refine ⟨sa, da, hsa, hda, hmint, hamt, ?_⟩
  rcases hcase with ⟨heq, htas⟩ | ⟨hne, hov, htas⟩
  · exact Or.inl ⟨heq, htas.symm⟩
  · exact Or.inr ⟨hne, hov, htas.symm⟩

/-- Success inversion for `initialize_protocol`. -/
theorem initialize_protocol_inv {s : Chain} {admin : Addr} {fee : Nat} {s' : Chain}
    (hok : initialize_protocol s admin fee = Except.ok s') :
    s.config = none ∧ fee ≤ 10000 ∧ s' = { s with config := some ⟨admin, fee⟩ } := by
  unfold initialize_protocol at hok
  simp only [bind_ok_iff, getE_ok_iff, guardE_ok_iff, pure_ok_iff, exists_const] at hok
  obtain ⟨hnone, hfee, hs'⟩ := hok
  exact ⟨hnone, hfee, hs'.symm⟩

/-- Success inversion for `create_user_profile`. -/
theorem create_user_profile_inv {s : Chain} {user : Addr} {name email : String}
    {now : Int} {s' : Chain}
    (hok : create_user_profile s user name email now = Except.ok s') :
    alookup s.profiles (Addr.profilePda user) = none ∧ name.length ≤ 50 ∧
      email.length ≤ 100 ∧
      s' = { s with profiles :=
        (Addr.profilePda user, ⟨user, name, email, false, now⟩) :: s.profiles } := by
  unfold create_user_profile at hok
  simp only [bind_ok_iff, getE_ok_iff, guardE_ok_iff, pure_ok_iff, exists_const] at hok
  obtain ⟨hfree, hn, he, hs'⟩ := hok
  exact ⟨hfree, hn, he, hs'.symm⟩

/-- Success inversion for `create_vault`. -/
theorem create_vault_inv {s : Chain} {user : Addr} {now : Int} {s' : Chain}
    (hok : create_vault s user now = Except.ok s') :
    ∃ prof, alookup s.profiles (Addr.profilePda user) = some prof ∧
      user = prof.owner ∧ alookup s.vaults (Addr.vaultPda prof.owner) = none ∧
      s' = { s with vaults :=
        (Addr.vaultPda prof.owner, ⟨prof.owner, now⟩) :: s.vaults } := by
  unfold create_vault at hok
  simp only [bind_ok_iff, getE_ok_iff, guardE_ok_iff, pure_ok_iff, exists_const] at hok
  obtain ⟨prof, hprof, howner, hfree, hs'⟩ := hok
  exact ⟨prof, hprof, howner, hfree, hs'.symm⟩

/-- Success inversion for `whitelist_token`. -/
theorem whitelist_token_inv {s : Chain} {signer mint : Addr} {symbol name : String}
    {is_stable : Bool} {now : Int} {s' : Chain}
    (hok : whitelist_token s signer mint symbol name is_stable now = Except.ok s') :
    ∃ cfg, s.config = some cfg ∧ signer = cfg.admin ∧ mint ∈ s.mints ∧
      alookup s.whitelist (Addr.whitelistPda mint) = none ∧
      symbol.length ≤ 10 ∧ name.length ≤ 50 ∧
      s' = { s with whitelist :=
        (Addr.whitelistPda mint, ⟨mint, symbol, name, is_stable, true, now⟩)
          :: s.whitelist } := by
  unfold whitelist_token at hok
  simp only [bind_ok_iff, getE_ok_iff, guardE_ok_iff, pure_ok_iff, exists_const] at hok
  obtain ⟨cfg, hcfg, hadm, hmint, hfree, hsym, hname, hs'⟩ := hok
  exact ⟨cfg, hcfg, hadm, hmint, hfree, hsym, hname, hs'.symm⟩

/-- Success inversion for `initiate_fiat_deposit`: the whitelist account is
any existing `TokenWhitelist` record, with no activity or mint condition on
it; the created record is Pending at the (signer, reference) PDA. -/
theorem initiate_fiat_deposit_inv {s : Chain} {user profileAddr mint wlAddr uta tta : Addr}
    {amount : Nat} {ref : String} {now : Int} {s' : Chain}
    (hok : initiate_fiat_deposit s user profileAddr mint wlAddr uta tta amount ref now =
      Except.ok s') :
    ∃ prof, alookup s.profiles profileAddr = some prof ∧ mint ∈ s.mints ∧
      (alookup s.whitelist wlAddr).isSome ∧
      alookup s.deposits (Addr.depositPda user ref) = none ∧
      (alookup s.tokenAccounts uta).isSome ∧ (alookup s.tokenAccounts tta).isSome ∧
      0 < amount ∧ ref.length ≤ 100 ∧
      s' = { s with deposits :=
        (Addr.depositPda user ref,
          ⟨prof.owner, mint, amount, ref, DepositStatus.Pending, now, now, 0⟩)
          :: s.deposits } := by
  unfold initiate_fiat_deposit at hok
  simp only [bind_ok_iff, getE_ok_iff, guardE_ok_iff, pure_ok_iff, exists_const] at hok
  obtain ⟨prof, hprof, hmint, wl, hwl, hfree, ua, hua, ta, hta, hamt, href, hs'⟩ := hok
  exact ⟨prof, hprof, hmint, by simp [hwl], hfree, by simp [hua], by simp [hta],
    hamt, href, hs'.symm⟩

/-- Success inversion for `complete_fiat_deposit`. -/
theorem complete_fiat_deposit_inv {s : Chain} {signer depAddr vta tta ata : Addr}
    {now : Int} {s' : Chain}
    (hok : complete_fiat_deposit s signer depAddr vta tta ata now = Except.ok s') :
    ∃ cfg dep vault vtaAcc ttaAcc ataAcc fee user_amount tas1 tas2,
      s.config = some cfg ∧ signer = cfg.admin ∧
      alookup s.deposits depAddr = some dep ∧
      alookup s.vaults (Addr.vaultPda dep.user) = some vault ∧
      alookup s.tokenAccounts vta = some vtaAcc ∧
      vtaAcc.owner = Addr.vaultPda dep.user ∧ vtaAcc.mint = dep.mint ∧
      alookup s.tokenAccounts tta = some ttaAcc ∧ ttaAcc.mint = dep.mint ∧
      alookup s.tokenAccounts ata = some ataAcc ∧ ataAcc.mint = dep.mint ∧
      ataAcc.owner = cfg.admin ∧
      dep.status = DepositStatus.Pending ∧ vault.owner = dep.user ∧
      fee_amount_calc dep.amount cfg.admin_fee_basis_points = some fee ∧
      checked_sub_u64 dep.amount fee = some user_amount ∧
      token_transfer s.tokenAccounts tta vta user_amount = Except.ok tas1 ∧
      ((0 < fee ∧ token_transfer tas1 tta ata fee = Except.ok tas2) ∨
       (¬ 0 < fee ∧ tas2 = tas1)) ∧
      s' = { s with tokenAccounts := tas2,
                    deposits := (depAddr,
                      { dep with status := DepositStatus.Completed, updated_at := now })
                      :: s.deposits } := by
  unfold complete_fiat_deposit at hok
  simp only [bind_ok_iff, getE_ok_iff, guardE_ok_iff, pure_ok_iff, ite_ok_iff,
    exists_const] at hok
  obtain ⟨cfg, hcfg, hadm, dep, hdep, vault, hvault, vtaAcc, hvta, hvo, hvm,
    ttaAcc, htta, htm, ataAcc, hata, ham, hao, hst, hvow, fee, hfee, ua, hua,
    tas1, ht1, hrest⟩ := hok
  rcases hrest with ⟨hpos, tas2, ht2, hs'⟩ | ⟨hz, tas2, h2eq, hs'⟩
  · exact ⟨cfg, dep, vault, vtaAcc, ttaAcc, ataAcc, fee, ua, tas1, tas2,
      hcfg, hadm, hdep, hvault, hvta, hvo, hvm, htta, htm, hata, ham, hao, hst,
      hvow, hfee, hua, ht1, Or.inl ⟨hpos, ht2⟩, hs'.symm⟩
  · exact ⟨cfg, dep, vault, vtaAcc, ttaAcc, ataAcc, fee, ua, tas1, tas2,
      hcfg, hadm, hdep, hvault, hvta, hvo, hvm, htta, htm, hata, ham, hao, hst,
      hvow, hfee, hua, ht1, Or.inr ⟨hz, h2eq.symm⟩, hs'.symm⟩

/-- Success inversion for `initiate_fiat_withdrawal`: the mint's whitelist
record must be active, the vault token account must cover the amount, and
the escrow transfer vault to treasury is recorded together with a Pending
withdrawal record. -/
theorem initiate_fiat_withdrawal_inv {s : Chain} {user mint vta tta : Addr}
    {amount : Nat} {ref : String} {now : Int} {s' : Chain}
    (hok : initiate_fiat_withdrawal s user mint vta tta amount ref now = Except.ok s') :
    ∃ prof vtaAcc ttaAcc wl tas1,
      alookup s.profiles (Addr.profilePda user) = some prof ∧
      (alookup s.vaults (Addr.vaultPda prof.owner)).isSome ∧
      alookup s.whitelist (Addr.whitelistPda mint) = some wl ∧ wl.is_active = true ∧
      mint ∈ s.mints ∧
      alookup s.tokenAccounts vta = some vtaAcc ∧
      vtaAcc.owner = Addr.vaultPda prof.owner ∧ vtaAcc.mint = mint ∧
      amount ≤ vtaAcc.amount ∧
      alookup s.tokenAccounts tta = some ttaAcc ∧ ttaAcc.mint = mint ∧
      alookup s.withdrawals (Addr.withdrawalPda user mint ref) = none ∧
      0 < amount ∧ ref.length ≤ 100 ∧
      token_transfer s.tokenAccounts vta tta amount = Except.ok tas1 ∧
      s' = { s with tokenAccounts := tas1,
                    withdrawals := (Addr.withdrawalPda user mint ref,
                      ⟨prof.owner, mint, amount, ref, WithdrawalStatus.Pending,
                       now, now, 0⟩) :: s.withdrawals } := by
  unfold initiate_fiat_withdrawal at hok
  simp only [bind_ok_iff, getE_ok_iff, guardE_ok_iff, pure_ok_iff, exists_const] at hok
  obtain ⟨prof, hprof, vault, hvault, wl, hwl, hact, hmint, vtaAcc, hvta, hvo, hvm,
    hcover, ttaAcc, htta, htm, hfree, hamt, href, tas1, ht1, hs'⟩ := hok
  exact ⟨prof, vtaAcc, ttaAcc, wl, tas1, hprof, by simp [hvault], hwl, hact, hmint,
    hvta, hvo, hvm, hcover, htta, htm, hfree, hamt, href, ht1, hs'.symm⟩

/-- Success inversion for `cancel_fiat_withdrawal`: admin-only, the record
was Pending, the refund moves exactly the recorded amount treasury to
vault, and the record is marked Cancelled. -/
theorem cancel_fiat_withdrawal_inv {s : Chain} {signer wAddr vta tta : Addr}
    {now : Int} {s' : Chain}
    (hok : cancel_fiat_withdrawal s signer wAddr vta tta now = Except.ok s') :
    ∃ cfg w vtaAcc ttaAcc tas1,
      s.config = some cfg ∧ signer = cfg.admin ∧
      alookup s.withdrawals wAddr = some w ∧
      (alookup s.vaults (Addr.vaultPda w.user)).isSome ∧
      alookup s.tokenAccounts vta = some vtaAcc ∧
      vtaAcc.owner = Addr.vaultPda w.user ∧ vtaAcc.mint = w.mint ∧
      alookup s.tokenAccounts tta = some ttaAcc ∧ ttaAcc.mint = w.mint ∧
      w.status = WithdrawalStatus.Pending ∧
      token_transfer s.tokenAccounts tta vta w.amount = Except.ok tas1 ∧
      s' = { s with tokenAccounts := tas1,
                    withdrawals := (wAddr,
                      { w with status := WithdrawalStatus.Cancelled, updated_at := now })
                      :: s.withdrawals } := by
  unfold cancel_fiat_withdrawal at hok
  simp only [bind_ok_iff, getE_ok_iff, guardE_ok_iff, pure_ok_iff, exists_const] at hok
  obtain ⟨cfg, hcfg, hadm, w, hw, vault, hvault, vtaAcc, hvta, hvo, hvm,
    ttaAcc, htta, htm, hst, tas1, ht1, hs'⟩ := hok
  exact ⟨cfg, w, vtaAcc, ttaAcc, tas1, hcfg, hadm, hw, by simp [hvault], hvta,
    hvo, hvm, htta, htm, hst, ht1, hs'.symm⟩

/-- Forward evaluation of `initiate_fiat_deposit`: with an existing
profile, mint, token accounts, any existing whitelist record, a free
(user, reference) slot, a positive amount and a short reference, the call
succeeds and appends the Pending record. -/
theorem initiate_fiat_deposit_runs {s : Chain} {now : Int}
    {user profileAddr mint wlAddr uta tta : Addr} {amount : Nat} {ref : String}
    {prof : UserProfile} {wl : TokenWhitelist} {uAcc tAcc : TokenAccount}
    (hprof : alookup s.profiles profileAddr = some prof)
    (hmint : mint ∈ s.mints)
    (hwl : alookup s.whitelist wlAddr = some wl)
    (hfree : alookup s.deposits (Addr.depositPda user ref) = none)
    (huta : alookup s.tokenAccounts uta = some uAcc)
    (htta : alookup s.tokenAccounts tta = some tAcc)
    (hamt : 0 < amount) (href : ref.length ≤ 100) :
    initiate_fiat_deposit s user profileAddr mint wlAddr uta tta amount ref now =
      Except.ok { s with deposits := (Addr.depositPda user ref,
        ⟨prof.owner, mint, amount, ref, DepositStatus.Pending, now, now, 0⟩)
        :: s.deposits } := by
  simp [initiate_fiat_deposit, hprof, hmint, hwl, hfree, huta, htta,
    guardE_pos hamt, guardE_pos href]

/-! ### Fee arithmetic facts -/

theorem mul_fee_lt_u128 {a f : Nat} (ha : a < u64Lim) (hf : f ≤ 10000) :
    a * f < u128Lim := by
  have h1 : a * f ≤ (2 ^ 64 - 1) * 10000 := by
    apply Nat.mul_le_mul _ hf
    have : a < 2 ^ 64 := ha
    omega
  calc a * f ≤ (2 ^ 64 - 1) * 10000 := h1
    _ < u128Lim := by norm_num [u128Lim]

theorem fee_le_amount {a f : Nat} (hf : f ≤ 10000) : a * f / 10000 ≤ a :=
  calc a * f / 10000 ≤ a * 10000 / 10000 :=
        Nat.div_le_div_right (Nat.mul_le_mul_left a hf)
    _ = a := Nat.mul_div_cancel a (by norm_num)

/-- Under the protocol invariant `f ≤ 10000` and a u64 amount, the fee
computation of `complete_fiat_deposit` succeeds and equals
`floor(a * f / 10000)` (the `as u64` truncation is the identity). -/
theorem fee_amount_calc_eq {a f : Nat} (ha : a < u64Lim) (hf : f ≤ 10000) :
    fee_amount_calc a f = some (a * f / 10000) := by
  unfold fee_amount_calc checked_mul_u128 checked_div_u128
  rcases Nat.eq_zero_or_pos f with hz | hpos
  · subst hz; simp
  · have hmul := mul_fee_lt_u128 ha hf
    have hq : a * f / 10000 < u64Lim := lt_of_le_of_lt (fee_le_amount hf) ha
    simp [hpos, hmul, Nat.mod_eq_of_lt hq]

theorem checked_sub_u64_inv {a b c : Nat} (h : checked_sub_u64 a b = some c) :
    b ≤ a ∧ c = a - b := by
  unfold checked_sub_u64 at h
  split at h
  · exact ⟨by assumption, (Option.some.inj h).symm⟩
  · cases h

theorem checked_sub_u64_eq {a b : Nat} (h : b ≤ a) :
    checked_sub_u64 a b = some (a - b) := by
  simp [checked_sub_u64, h]

/-- Claim C6: with the fee-rate invariant `admin_fee_basis_points ≤ 10000`
(which `initialize_protocol` establishes by rejecting larger rates with
`InvalidFeeBasisPoints`, first conjunct) and a u64 amount, the fee
arithmetic of `complete_fiat_deposit` never aborts: the widened product
stays below `2^128`, the quotient by 10000 fits in u64 (so the `as u64`
narrowing loses nothing), the fee is at most the amount, and the
`checked_mul`/`checked_div`/`checked_sub` chain returns `some` throughout
(second conjunct). -/
theorem complete_deposit_fee_arithmetic_total :
    (∀ (s : Chain) (admin : Addr) (f : Nat), s.config = none → 10000 < f →
      initialize_protocol s admin f =
        Except.error (ProgErr.program StateFiError.InvalidFeeBasisPoints)) ∧
    (∀ a f : Nat, a < u64Lim → f ≤ 10000 →
      a * f < u128Lim ∧
      a * f / 10000 < u64Lim ∧
      a * f / 10000 ≤ a ∧
      fee_amount_calc a f = some (a * f / 10000) ∧
      checked_sub_u64 a (a * f / 10000) = some (a - a * f / 10000)) := by
  constructor
  · intro s admin f hnone hgt
    simp [initialize_protocol, guardE_pos hnone,
      guardE_neg (by omega : ¬ f ≤ 10000)]
  · intro a f ha hf
    exact ⟨mul_fee_lt_u128 ha hf, lt_of_le_of_lt (fee_le_amount hf) ha,
      fee_le_amount hf, fee_amount_calc_eq ha hf,
      checked_sub_u64_eq (fee_le_amount hf)⟩

/-- Witness for C6 at the spec's scenario: amount 10000, fee rate 250 bps. -/
theorem complete_deposit_fee_arithmetic_total_witness :
    10000 * 250 < u128Lim ∧
    10000 * 250 / 10000 < u64Lim ∧
    10000 * 250 / 10000 ≤ 10000 ∧
    fee_amount_calc 10000 250 = some (10000 * 250 / 10000) ∧
    checked_sub_u64 10000 (10000 * 250 / 10000) =
      some (10000 - 10000 * 250 / 10000) :=
  complete_deposit_fee_arithmetic_total.2 10000 250 (by decide) (by decide)

/-- Claim C1: for a config with fee rate `f ≤ 10000` and a pending deposit
of u64 amount `a > 0`, a successful `complete_fiat_deposit` computes
`fee = floor(a * f / 10000)` and `user_amount = a - fee`, moves
`user_amount` treasury to vault and `fee` treasury to admin (when the fee
is zero the fee transfer is skipped and the admin balance is unchanged,
which the `+ fee` form also expresses), the treasury loses exactly `a`,
and `fee + user_amount = a` exactly; the deposit is marked Completed. -/
theorem complete_fiat_deposit_fee_split {s : Chain} {signer depAddr vta tta ata : Addr}
    {now : Int} {s' : Chain} {cfg : ProtocolConfig} {dep : FiatDeposit}
    {vAcc tAcc aAcc : TokenAccount}
    (hcfg : s.config = some cfg) (hf : cfg.admin_fee_basis_points ≤ 10000)
    (hdep : alookup s.deposits depAddr = some dep)
    (hapos : 0 < dep.amount) (ha64 : dep.amount < u64Lim)
    (hv : alookup s.tokenAccounts vta = some vAcc)
    (ht : alookup s.tokenAccounts tta = some tAcc)
    (ha : alookup s.tokenAccounts ata = some aAcc)
    (hvt : vta ≠ tta) (hat : ata ≠ tta) (hva : vta ≠ ata)
    (hok : complete_fiat_deposit s signer depAddr vta tta ata now = Except.ok s') :
    dep.amount * cfg.admin_fee_basis_points / 10000 +
      (dep.amount - dep.amount * cfg.admin_fee_basis_points / 10000) = dep.amount ∧
    alookup s'.tokenAccounts vta = some { vAcc with amount :=
      vAcc.amount + (dep.amount - dep.amount * cfg.admin_fee_basis_points / 10000) } ∧
    alookup s'.tokenAccounts ata = some { aAcc with amount :=
      aAcc.amount + dep.amount * cfg.admin_fee_basis_points / 10000 } ∧
    alookup s'.tokenAccounts tta = some { tAcc with amount :=
      tAcc.amount - dep.amount } ∧
    alookup s'.deposits depAddr = some
      { dep with status := DepositStatus.Completed, updated_at := now } := by
  obtain ⟨cfg', dep', vault, vtaAcc, ttaAcc, ataAcc, fee, ua, tas1, tas2,
    hcfg', hadm, hdep', hvault, hvta', hvo, hvm, htta', htm, hata', ham, hao,
    hst, hvow, hfee, hua, ht1, hcase, hs'⟩ := complete_fiat_deposit_inv hok
  rw [hcfg] at hcfg'
  obtain rfl := Option.some.inj hcfg'
  rw [hdep] at hdep'
  obtain rfl := Option.some.inj hdep'
  rw [hv] at hvta'
  obtain rfl := Option.some.inj hvta'
  rw [ht] at htta'
  obtain rfl := Option.some.inj htta'
  rw [ha] at hata'
  obtain rfl := Option.some.inj hata'
  rw [fee_amount_calc_eq ha64 hf] at hfee
  obtain rfl := Option.some.inj hfee
  obtain ⟨hfle, rfl⟩ := checked_sub_u64_inv hua
  -- first transfer: treasury to vault
  obtain ⟨sa1, da1, hsa1, hda1, _, hcov1, hsh1⟩ := token_transfer_inv ht1
  rw [ht] at hsa1
  obtain rfl := Option.some.inj hsa1
  rw [hv] at hda1
  obtain rfl := Option.some.inj hda1
  have htv : tta ≠ vta := Ne.symm hvt
  rcases hsh1 with ⟨heq, _⟩ | ⟨_, hov1, htas1⟩
  · exact absurd heq htv
  subst htas1
  subst hs'
  rcases hcase with ⟨hfpos, ht2⟩ | ⟨hfz, htas2⟩
  · -- fee > 0: second transfer treasury to admin
    obtain ⟨sa2, da2, hsa2, hda2, _, hcov2, hsh2⟩ := token_transfer_inv ht2
    have hta : tta ≠ ata := Ne.symm hat
    have hav : ata ≠ vta := Ne.symm hva
    rw [alookup_cons, if_pos rfl] at hsa2
    obtain rfl := Option.some.inj hsa2
    rw [alookup_cons, if_neg hat, alookup_cons, if_neg hav, ha] at hda2
    obtain rfl := Option.some.inj hda2
    rcases hsh2 with ⟨heq, _⟩ | ⟨_, hov2, htas2⟩
    · exact absurd heq hta
    subst htas2
    refine ⟨by omega, ?_, ?_, ?_, ?_⟩
    · simp [alookup_cons, hvt, hva]
    · simp [alookup_cons, hat]
    · simp only [alookup_cons]
      simp [alookup_cons]
      omega
    · simp [alookup_cons]
  · -- fee = 0: no second transfer
    have hfz' : dep.amount * cfg.admin_fee_basis_points / 10000 = 0 := by omega
    subst htas2
    refine ⟨by omega, ?_, ?_, ?_, ?_⟩
    · simp [alookup_cons, hvt]
    · simp [alookup_cons, hat, Ne.symm hva, ha, hfz']
    · simp [alookup_cons, hfz']
    · simp [alookup_cons]

/-! ### Concrete scenario for the C1 witness: fee rate 250 bps, deposit
amount 10000, treasury holding 50000. -/

def c1cfg : ProtocolConfig := ⟨Addr.ext 0, 250⟩

def c1dep : FiatDeposit :=
  ⟨Addr.ext 1, Addr.ext 2, 10000, "r1", DepositStatus.Pending, 0, 0, 0⟩

def c1vAcc : TokenAccount := ⟨Addr.vaultPda (Addr.ext 1), Addr.ext 2, 0⟩

def c1tAcc : TokenAccount := ⟨Addr.configPda, Addr.ext 2, 50000⟩

def c1aAcc : TokenAccount := ⟨Addr.ext 0, Addr.ext 2, 0⟩

def c1s : Chain :=
  { config := some c1cfg
    profiles := []
    vaults := [(Addr.vaultPda (Addr.ext 1), ⟨Addr.ext 1, 0⟩)]
    whitelist := []
    deposits := [(Addr.depositPda (Addr.ext 1) "r1", c1dep)]
    withdrawals := []
    tokenAccounts := [(Addr.ext 10, c1vAcc), (Addr.ext 11, c1tAcc), (Addr.ext 12, c1aAcc)]
    mints := [Addr.ext 2] }

def c1s' : Chain :=
  (complete_fiat_deposit c1s (Addr.ext 0) (Addr.depositPda (Addr.ext 1) "r1")
    (Addr.ext 10) (Addr.ext 11) (Addr.ext 12) 5).toOption.getD c1s

/-- Witness for C1: fee 250, user amount 9750, treasury down by 10000. -/
theorem complete_fiat_deposit_fee_split_witness :
    c1dep.amount * c1cfg.admin_fee_basis_points / 10000 +
      (c1dep.amount - c1dep.amount * c1cfg.admin_fee_basis_points / 10000) =
      c1dep.amount ∧
    alookup c1s'.tokenAccounts (Addr.ext 10) = some { c1vAcc with amount :=
      c1vAcc.amount +
        (c1dep.amount - c1dep.amount * c1cfg.admin_fee_basis_points / 10000) } ∧
    alookup c1s'.tokenAccounts (Addr.ext 12) = some { c1aAcc with amount :=
      c1aAcc.amount + c1dep.amount * c1cfg.admin_fee_basis_points / 10000 } ∧
    alookup c1s'.tokenAccounts (Addr.ext 11) = some { c1tAcc with amount :=
      c1tAcc.amount - c1dep.amount } ∧
    alookup c1s'.deposits (Addr.depositPda (Addr.ext 1) "r1") = some
      { c1dep with status := DepositStatus.Completed, updated_at := 5 } :=
  @complete_fiat_deposit_fee_split c1s (Addr.ext 0)
    (Addr.depositPda (Addr.ext 1) "r1") (Addr.ext 10) (Addr.ext 11) (Addr.ext 12)
    5 c1s' c1cfg c1dep c1vAcc c1tAcc c1aAcc
    (by rfl) (by decide) (by rfl) (by decide) (by decide) (by rfl) (by rfl)
    (by rfl) (by decide) (by decide) (by decide) (by rfl)

/-- Claim C8: a successful `complete_fiat_withdrawal` on a Pending record
changes only that record's `status` (to Completed) and `updated_at`; its
other fields are untouched, every other record map is untouched, and no
token balance moves. -/
theorem complete_fiat_withdrawal_frame {s : Chain} {signer wAddr : Addr}
    {now : Int} {s' : Chain} {w : FiatWithdrawal}
    (hw : alookup s.withdrawals wAddr = some w)
    (hok : complete_fiat_withdrawal s signer wAddr now = Except.ok s') :
    s'.tokenAccounts = s.tokenAccounts ∧ s'.deposits = s.deposits ∧
    s'.config = s.config ∧ s'.profiles = s.profiles ∧ s'.vaults = s.vaults ∧
    s'.whitelist = s.whitelist ∧ s'.mints = s.mints ∧
    w.status = WithdrawalStatus.Pending ∧
    alookup s'.withdrawals wAddr = some
      { w with status := WithdrawalStatus.Completed, updated_at := now } ∧
    ∀ k, k ≠ wAddr → alookup s'.withdrawals k = alookup s.withdrawals k := by
  obtain ⟨cfg, w', hcfg, hadm, hw', hst, hs'⟩ := complete_fiat_withdrawal_inv hok
  rw [hw] at hw'
  obtain rfl := Option.some.inj hw'
  subst hs'
  refine ⟨rfl, rfl, rfl, rfl, rfl, rfl, rfl, hst, ?_, ?_⟩
  · simp [alookup_cons]
  · intro k hk
    simp [alookup_cons, hk]

/-! ### Concrete scenario for the C8 witness. -/

def c8w : FiatWithdrawal :=
  ⟨Addr.ext 1, Addr.ext 2, 500, "w1", WithdrawalStatus.Pending, 0, 0, 0⟩

def c8s : Chain :=
  { config := some ⟨Addr.ext 0, 250⟩
    profiles := []
    vaults := []
    whitelist := []
    deposits := []
    withdrawals := [(Addr.withdrawalPda (Addr.ext 1) (Addr.ext 2) "w1", c8w)]
    tokenAccounts := [(Addr.ext 10, ⟨Addr.vaultPda (Addr.ext 1), Addr.ext 2, 7⟩)]
    mints := [Addr.ext 2] }

def c8s' : Chain :=
  (complete_fiat_withdrawal c8s (Addr.ext 0)
    (Addr.withdrawalPda (Addr.ext 1) (Addr.ext 2) "w1") 9).toOption.getD c8s

/-- Witness for C8 at a concrete Pending withdrawal. -/
theorem complete_fiat_withdrawal_frame_witness :
    c8s'.tokenAccounts = c8s.tokenAccounts ∧ c8s'.deposits = c8s.deposits ∧
    c8s'.config = c8s.config ∧ c8s'.profiles = c8s.profiles ∧
    c8s'.vaults = c8s.vaults ∧ c8s'.whitelist = c8s.whitelist ∧
    c8s'.mints = c8s.mints ∧
    c8w.status = WithdrawalStatus.Pending ∧
    alookup c8s'.withdrawals (Addr.withdrawalPda (Addr.ext 1) (Addr.ext 2) "w1") =
      some { c8w with status := WithdrawalStatus.Completed, updated_at := 9 } ∧
    ∀ k, k ≠ Addr.withdrawalPda (Addr.ext 1) (Addr.ext 2) "w1" →
      alookup c8s'.withdrawals k = alookup c8s.withdrawals k :=
  @complete_fiat_withdrawal_frame c8s (Addr.ext 0)
    (Addr.withdrawalPda (Addr.ext 1) (Addr.ext 2) "w1") 9 c8s' c8w
    (by rfl) (by rfl)

/-- Claim C5: with the config singleton present, every privileged
instruction — `whitelist_token`, `complete_fiat_deposit`,
`complete_fiat_withdrawal`, `cancel_fiat_withdrawal` — called by a signer
other than the bound admin fails with `Unauthorized` (the `has_one = admin`
constraint fires before any later account or handler logic), and an error
result commits no mutation. -/
theorem privileged_ops_require_admin (s : Chain) (now : Int) (cfg : ProtocolConfig)
    (signer : Addr) (hcfg : s.config = some cfg) (hne : signer ≠ cfg.admin) :
    (∀ mint symbol name is_stable,
      whitelist_token s signer mint symbol name is_stable now =
        Except.error (ProgErr.program StateFiError.Unauthorized)) ∧
    (∀ depAddr vta tta ata,
      complete_fiat_deposit s signer depAddr vta tta ata now =
        Except.error (ProgErr.program StateFiError.Unauthorized)) ∧
    (∀ wAddr,
      complete_fiat_withdrawal s signer wAddr now =
        Except.error (ProgErr.program StateFiError.Unauthorized)) ∧
    (∀ wAddr vta tta,
      cancel_fiat_withdrawal s signer wAddr vta tta now =
        Except.error (ProgErr.program StateFiError.Unauthorized)) := by
  refine ⟨?_, ?_, ?_, ?_⟩
  · intro mint symbol name is_stable
    simp [whitelist_token, hcfg, guardE_neg hne]
  · intro depAddr vta tta ata
    simp [complete_fiat_deposit, hcfg, guardE_neg hne]
  · intro wAddr
    simp [complete_fiat_withdrawal, hcfg, guardE_neg hne]
  · intro wAddr vta tta
    simp [cancel_fiat_withdrawal, hcfg, guardE_neg hne]

def c5s : Chain :=
  { config := some ⟨Addr.ext 0, 250⟩
    profiles := []
    vaults := []
    whitelist := []
    deposits := []
    withdrawals := []
    tokenAccounts := []
    mints := [Addr.ext 2] }

/-- Witness for C5: signer `ext 5` is not the admin `ext 0`; all four
privileged instructions fail with `Unauthorized`. -/
theorem privileged_ops_require_admin_witness :
    whitelist_token c5s (Addr.ext 5) (Addr.ext 2) "USD" "usd" true 0 =
      Except.error (ProgErr.program StateFiError.Unauthorized) ∧
    complete_fiat_deposit c5s (Addr.ext 5) (Addr.ext 3) (Addr.ext 10) (Addr.ext 11)
      (Addr.ext 12) 0 = Except.error (ProgErr.program StateFiError.Unauthorized) ∧
    complete_fiat_withdrawal c5s (Addr.ext 5) (Addr.ext 3) 0 =
      Except.error (ProgErr.program StateFiError.Unauthorized) ∧
    cancel_fiat_withdrawal c5s (Addr.ext 5) (Addr.ext 3) (Addr.ext 10) (Addr.ext 11) 0 =
      Except.error (ProgErr.program StateFiError.Unauthorized) := by
  have h := privileged_ops_require_admin c5s 0 ⟨Addr.ext 0, 250⟩ (Addr.ext 5)
    (by rfl) (by decide)
  exact ⟨h.1 (Addr.ext 2) "USD" "usd" true,
    h.2.1 (Addr.ext 3) (Addr.ext 10) (Addr.ext 11) (Addr.ext 12),
    h.2.2.1 (Addr.ext 3),
    h.2.2.2 (Addr.ext 3) (Addr.ext 10) (Addr.ext 11)⟩

/-! ### Per-step effect on the deposit and withdrawal record maps -/

/-- Any successful instruction either leaves the deposit map unchanged,
creates one Pending record in a free slot, or moves one Pending record to
Completed. -/
theorem step_deposits_effect {s : Chain} {now : Int} {op : Op} {s' : Chain}
    (h : step s now op = Except.ok s') :
    s'.deposits = s.deposits ∨
    (∃ k d, alookup s.deposits k = none ∧ d.status = DepositStatus.Pending ∧
      s'.deposits = (k, d) :: s.deposits) ∨
    (∃ k d, alookup s.deposits k = some d ∧ d.status = DepositStatus.Pending ∧
      s'.deposits = (k, { d with status := DepositStatus.Completed, updated_at := now })
        :: s.deposits) := by
  cases op with
  | initialize_protocol admin fee =>
    obtain ⟨_, _, hs'⟩ := initialize_protocol_inv h
    subst hs'; left; rfl
  | create_user_profile user name email =>
    obtain ⟨_, _, _, hs'⟩ := create_user_profile_inv h
    subst hs'; left; rfl
  | create_vault user =>
    obtain ⟨prof, _, _, _, hs'⟩ := create_vault_inv h
    subst hs'; left; rfl
  | whitelist_token signer mint symbol name is_stable =>
    obtain ⟨cfg, _, _, _, _, _, _, hs'⟩ := whitelist_token_inv h
    subst hs'; left; rfl
  | initiate_fiat_deposit user profileAddr mint wlAddr uta tta amount ref =>
    obtain ⟨prof, _, _, _, hfree, _, _, _, _, hs'⟩ := initiate_fiat_deposit_inv h
    subst hs'
    right; left
    exact ⟨Addr.depositPda user ref, _, hfree, rfl, rfl⟩
  | complete_fiat_deposit signer depAddr vta tta ata =>
    obtain ⟨cfg, dep, _, _, _, _, _, _, _, _, _, _, hdep2, _, _, _, _, _, _, _,
      _, _, hst, _, _, _, _, _, hs'⟩ := complete_fiat_deposit_inv h
    subst hs'
    right; right
    exact ⟨depAddr, dep, hdep2, hst, rfl⟩
  | initiate_fiat_withdrawal user mint vta tta amount ref =>
    obtain ⟨prof, _, _, _, _, _, _, _, _, _, _, _, _, _, _, _, _, _, _, _, hs'⟩ :=
      initiate_fiat_withdrawal_inv h
    subst hs'; left; rfl
  | complete_fiat_withdrawal signer wAddr =>
    obtain ⟨cfg, w, _, _, _, _, hs'⟩ := complete_fiat_withdrawal_inv h
    subst hs'; left; rfl
  | cancel_fiat_withdrawal signer wAddr vta tta =>
    obtain ⟨cfg, w, _, _, _, _, _, _, _, _, _, _, _, _, _, _, hs'⟩ :=
      cancel_fiat_withdrawal_inv h
    subst hs'; left; rfl

/-- Any successful instruction either leaves the withdrawal map unchanged,
creates one Pending record in a free slot, or moves one Pending record to
Completed or Cancelled. -/
theorem step_withdrawals_effect {s : Chain} {now : Int} {op : Op} {s' : Chain}
    (h : step s now op = Except.ok s') :
    s'.withdrawals = s.withdrawals ∨
    (∃ k w, alookup s.withdrawals k = none ∧ w.status = WithdrawalStatus.Pending ∧
      s'.withdrawals = (k, w) :: s.withdrawals) ∨
    (∃ k w st, alookup s.withdrawals k = some w ∧
      w.status = WithdrawalStatus.Pending ∧
      (st = WithdrawalStatus.Completed ∨ st = WithdrawalStatus.Cancelled) ∧
      s'.withdrawals = (k, { w with status := st, updated_at := now })
        :: s.withdrawals) := by
  cases op with
  | initialize_protocol admin fee =>
    obtain ⟨_, _, hs'⟩ := initialize_protocol_inv h
    subst hs'; left; rfl
  | create_user_profile user name email =>
    obtain ⟨_, _, _, hs'⟩ := create_user_profile_inv h
    subst hs'; left; rfl
  | create_vault user =>
    obtain ⟨prof, _, _, _, hs'⟩ := create_vault_inv h
    subst hs'; left; rfl
  | whitelist_token signer mint symbol name is_stable =>
    obtain ⟨cfg, _, _, _, _, _, _, hs'⟩ := whitelist_token_inv h
    subst hs'; left; rfl
  | initiate_fiat_deposit user profileAddr mint wlAddr uta tta amount ref =>
    obtain ⟨prof, _, _, _, _, _, _, _, _, hs'⟩ := initiate_fiat_deposit_inv h
    subst hs'; left; rfl
  | complete_fiat_deposit signer depAddr vta tta ata =>
    obtain ⟨cfg, dep, _, _, _, _, _, _, _, _, _, _, _, _, _, _, _, _, _, _,
      _, _, _, _, _, _, _, _, hs'⟩ := complete_fiat_deposit_inv h
    subst hs'; left; rfl
  | initiate_fiat_withdrawal user mint vta tta amount ref =>
    obtain ⟨prof, _, _, _, _, _, _, _, _, _, _, _, _, _, _, _, hfree, _, _, _, hs'⟩ :=
      initiate_fiat_withdrawal_inv h
    subst hs'
    right; left
    exact ⟨Addr.withdrawalPda user mint ref, _, hfree, rfl, rfl⟩
  | complete_fiat_withdrawal signer wAddr =>
    obtain ⟨cfg, w, _, _, hw, hst, hs'⟩ := complete_fiat_withdrawal_inv h
    subst hs'
    right; right
    exact ⟨wAddr, w, WithdrawalStatus.Completed, hw, hst, Or.inl rfl, rfl⟩
  | cancel_fiat_withdrawal signer wAddr vta tta =>
    obtain ⟨cfg, w, _, _, _, _, _, hw, _, _, _, _, _, _, hst, _, hs'⟩ :=
      cancel_fiat_withdrawal_inv h
    subst hs'
    right; right
    exact ⟨wAddr, w, WithdrawalStatus.Cancelled, hw, hst, Or.inr rfl, rfl⟩

/-- Completing a deposit whose record is not Pending can never succeed
(lib.rs:115-118). -/
theorem complete_fiat_deposit_requires_pending {s : Chain} {now : Int}
    {signer depAddr vta tta ata : Addr} {dep : FiatDeposit}
    (hdep : alookup s.deposits depAddr = some dep)
    (hterm : dep.status ≠ DepositStatus.Pending) :
    ∀ s', complete_fiat_deposit s signer depAddr vta tta ata now ≠ Except.ok s' := by
  intro s' hok
  obtain ⟨_, dep2, _, _, _, _, _, _, _, _, _, _, hdep2, _, _, _, _, _, _, _,
    _, _, hst, _, _, _, _, _, _⟩ := complete_fiat_deposit_inv hok
  rw [hdep] at hdep2
  obtain rfl := Option.some.inj hdep2
  exact hterm hst

/-- Completing a withdrawal whose record is not Pending can never succeed
(lib.rs:218-221). -/
theorem complete_fiat_withdrawal_requires_pending {s : Chain} {now : Int}
    {signer wAddr : Addr} {w : FiatWithdrawal}
    (hw : alookup s.withdrawals wAddr = some w)
    (hterm : w.status ≠ WithdrawalStatus.Pending) :
    ∀ s', complete_fiat_withdrawal s signer wAddr now ≠ Except.ok s' := by
  intro s' hok
  obtain ⟨_, w2, _, _, hw2, hst, _⟩ := complete_fiat_withdrawal_inv hok
  rw [hw] at hw2
  obtain rfl := Option.some.inj hw2
  exact hterm hst

/-- Cancelling a withdrawal whose record is not Pending can never succeed
(lib.rs:237-240). -/
theorem cancel_fiat_withdrawal_requires_pending {s : Chain} {now : Int}
    {signer wAddr vta tta : Addr} {w : FiatWithdrawal}
    (hw : alookup s.withdrawals wAddr = some w)
    (hterm : w.status ≠ WithdrawalStatus.Pending) :
    ∀ s', cancel_fiat_withdrawal s signer wAddr vta tta now ≠ Except.ok s' := by
  intro s' hok
  obtain ⟨_, w2, _, _, _, _, _, hw2, _, _, _, _, _, _, hst, _, _⟩ :=
    cancel_fiat_withdrawal_inv hok
  rw [hw] at hw2
  obtain rfl := Option.some.inj hw2
  exact hterm hst

/-- Claim C2: a deposit or withdrawal record leaves Pending at most once.
Conjuncts 1-3: a record that is no longer Pending can never be completed or
cancelled again (no success is possible, so — errors committing nothing in
this model — balances and records are unchanged).  Conjuncts 4-6: when the
caller is the admin and every account constraint resolves, the failure is
precisely the State error (`InvalidDepositStatus` /
`InvalidWithdrawalStatus`).  Conjunct 7: no instruction ever changes a
record whose status is terminal (not Pending), so there is no transition
out of `Completed`, `Rejected`, or `Cancelled`.  Conjuncts 8-10 state the
temporal reading directly as two-step sequences: after a successful
`complete_fiat_deposit`, a second completion of the same record can never
succeed; after a successful `complete_fiat_withdrawal` (respectively
`cancel_fiat_withdrawal`), neither a completion nor a cancellation of the
same record can ever succeed again, whatever accounts or signer the second
call supplies. -/
theorem pending_exits_at_most_once :
    (∀ (s : Chain) (now : Int) (signer depAddr vta tta ata : Addr)
       (dep : FiatDeposit) (s' : Chain),
       alookup s.deposits depAddr = some dep → dep.status ≠ DepositStatus.Pending →
       complete_fiat_deposit s signer depAddr vta tta ata now ≠ Except.ok s') ∧
    (∀ (s : Chain) (now : Int) (signer wAddr : Addr) (w : FiatWithdrawal) (s' : Chain),
       alookup s.withdrawals wAddr = some w → w.status ≠ WithdrawalStatus.Pending →
       complete_fiat_withdrawal s signer wAddr now ≠ Except.ok s') ∧
    (∀ (s : Chain) (now : Int) (signer wAddr vta tta : Addr) (w : FiatWithdrawal)
       (s' : Chain),
       alookup s.withdrawals wAddr = some w → w.status ≠ WithdrawalStatus.Pending →
       cancel_fiat_withdrawal s signer wAddr vta tta now ≠ Except.ok s') ∧
    (∀ (s : Chain) (now : Int) (signer depAddr vta tta ata : Addr)
       (cfg : ProtocolConfig) (dep : FiatDeposit) (vault : Vault)
       (vtaAcc ttaAcc ataAcc : TokenAccount),
       s.config = some cfg → signer = cfg.admin →
       alookup s.deposits depAddr = some dep →
       alookup s.vaults (Addr.vaultPda dep.user) = some vault →
       alookup s.tokenAccounts vta = some vtaAcc →
       vtaAcc.owner = Addr.vaultPda dep.user → vtaAcc.mint = dep.mint →
       alookup s.tokenAccounts tta = some ttaAcc → ttaAcc.mint = dep.mint →
       alookup s.tokenAccounts ata = some ataAcc → ataAcc.mint = dep.mint →
       ataAcc.owner = cfg.admin →
       dep.status ≠ DepositStatus.Pending →
       complete_fiat_deposit s signer depAddr vta tta ata now =
         Except.error (ProgErr.program StateFiError.InvalidDepositStatus)) ∧
    (∀ (s : Chain) (now : Int) (signer wAddr : Addr) (cfg : ProtocolConfig)
       (w : FiatWithdrawal),
       s.config = some cfg → signer = cfg.admin →
       alookup s.withdrawals wAddr = some w →
       w.status ≠ WithdrawalStatus.Pending →
       complete_fiat_withdrawal s signer wAddr now =
         Except.error (ProgErr.program StateFiError.InvalidWithdrawalStatus)) ∧
    (∀ (s : Chain) (now : Int) (signer wAddr vta tta : Addr) (cfg : ProtocolConfig)
       (w : FiatWithdrawal) (vault : Vault) (vtaAcc ttaAcc : TokenAccount),
       s.config = some cfg → signer = cfg.admin →
       alookup s.withdrawals wAddr = some w →
       alookup s.vaults (Addr.vaultPda w.user) = some vault →
       alookup s.tokenAccounts vta = some vtaAcc →
       vtaAcc.owner = Addr.vaultPda w.user → vtaAcc.mint = w.mint →
       alookup s.tokenAccounts tta = some ttaAcc → ttaAcc.mint = w.mint →
       w.status ≠ WithdrawalStatus.Pending →
       cancel_fiat_withdrawal s signer wAddr vta tta now =
         Except.error (ProgErr.program StateFiError.InvalidWithdrawalStatus)) ∧
    (∀ (s : Chain) (now : Int) (op : Op) (s' : Chain),
       step s now op = Except.ok s' →
       (∀ k d, alookup s.deposits k = some d → d.status ≠ DepositStatus.Pending →
         alookup s'.deposits k = some d) ∧
       (∀ k w, alookup s.withdrawals k = some w → w.status ≠ WithdrawalStatus.Pending →
         alookup s'.withdrawals k = some w)) ∧
    (∀ (s : Chain) (now now' : Int)
       (signer signer' depAddr vta tta ata vta' tta' ata' : Addr) (s₁ : Chain),
       complete_fiat_deposit s signer depAddr vta tta ata now = Except.ok s₁ →
       ∀ s'', complete_fiat_deposit s₁ signer' depAddr vta' tta' ata' now' ≠
         Except.ok s'') ∧
    (∀ (s : Chain) (now now' : Int) (signer signer' wAddr vta' tta' : Addr)
       (s₁ : Chain),
       complete_fiat_withdrawal s signer wAddr now = Except.ok s₁ →
       (∀ s'', complete_fiat_withdrawal s₁ signer' wAddr now' ≠ Except.ok s'') ∧
       (∀ s'', cancel_fiat_withdrawal s₁ signer' wAddr vta' tta' now' ≠
         Except.ok s'')) ∧
    (∀ (s : Chain) (now now' : Int) (signer signer' wAddr vta tta vta' tta' : Addr)
       (s₁ : Chain),
       cancel_fiat_withdrawal s signer wAddr vta tta now = Except.ok s₁ →
       (∀ s'', complete_fiat_withdrawal s₁ signer' wAddr now' ≠ Except.ok s'') ∧
       (∀ s'', cancel_fiat_withdrawal s₁ signer' wAddr vta' tta' now' ≠
         Except.ok s'')) := by
  refine ⟨?_, ?_, ?_, ?_, ?_, ?_, ?_, ?_, ?_, ?_⟩
  · intro s now signer depAddr vta tta ata dep s' hdep hterm
    exact complete_fiat_deposit_requires_pending hdep hterm s'
  · intro s now signer wAddr w s' hw hterm
    exact complete_fiat_withdrawal_requires_pending hw hterm s'
  · intro s now signer wAddr vta tta w s' hw hterm
    exact cancel_fiat_withdrawal_requires_pending hw hterm s'
  · intro s now signer depAddr vta tta ata cfg dep vault vtaAcc ttaAcc ataAcc
      hcfg hadm hdep hvault hvta hvo hvm htta htm hata ham hao hst
    simp [complete_fiat_deposit, hcfg, hdep, hvault, hvta, htta, hata,
      guardE_pos hadm, guardE_pos hvo, guardE_pos hvm, guardE_pos htm,
      guardE_pos ham, guardE_pos hao, guardE_neg hst]
  · intro s now signer wAddr cfg w hcfg hadm hw hst
    simp [complete_fiat_withdrawal, hcfg, hw, guardE_pos hadm, guardE_neg hst]
  · intro s now signer wAddr vta tta cfg w vault vtaAcc ttaAcc
      hcfg hadm hw hvault hvta hvo hvm htta htm hst
    simp [cancel_fiat_withdrawal, hcfg, hw, hvault, hvta, htta,
      guardE_pos hadm, guardE_pos hvo, guardE_pos hvm, guardE_pos htm,
      guardE_neg hst]
  · intro s now op s' hstep
    constructor
    · intro k d hk hd
      rcases step_deposits_effect hstep with heq | ⟨k0, d0, hfree, _, heq⟩ |
        ⟨k0, d0, hlook, hpend, heq⟩
      · rw [heq]; exact hk
      · rw [heq]
        by_cases hkk : k = k0
        · rw [hkk] at hk
          rw [hk] at hfree
          cases hfree
        · simp [alookup_cons, hkk]
          exact hk
      · rw [heq]
        by_cases hkk : k = k0
        · rw [hkk] at hk
          rw [hk] at hlook
          obtain rfl := Option.some.inj hlook
          exact absurd hpend hd
        · simp [alookup_cons, hkk]
          exact hk
    · intro k w hk hd
      rcases step_withdrawals_effect hstep with heq | ⟨k0, w0, hfree, _, heq⟩ |
        ⟨k0, w0, st0, hlook, hpend, _, heq⟩
      · rw [heq]; exact hk
      · rw [heq]
        by_cases hkk : k = k0
        · rw [hkk] at hk
          rw [hk] at hfree
          cases hfree
        · simp [alookup_cons, hkk]
          exact hk
      · rw [heq]
        by_cases hkk : k = k0
        · rw [hkk] at hk
          rw [hk] at hlook
          obtain rfl := Option.some.inj hlook
          exact absurd hpend hd
        · simp [alookup_cons, hkk]
          exact hk
  · intro s now now' signer signer' depAddr vta tta ata vta' tta' ata' s₁ hok1
    obtain ⟨_, dep, _, _, _, _, _, _, _, _, _, _, _, _, _, _, _, _, _, _, _, _,
      _, _, _, _, _, _, hs₁⟩ := complete_fiat_deposit_inv hok1
    subst hs₁
    have hlook : alookup ((depAddr,
        { dep with status := DepositStatus.Completed, updated_at := now })
        :: s.deposits) depAddr = some
        { dep with status := DepositStatus.Completed, updated_at := now } := by
      simp [alookup_cons]
    exact complete_fiat_deposit_requires_pending hlook (by simp)
  · intro s now now' signer signer' wAddr vta' tta' s₁ hok1
    obtain ⟨_, w, _, _, _, _, hs₁⟩ := complete_fiat_withdrawal_inv hok1
    subst hs₁
    have hlook : alookup ((wAddr,
        { w with status := WithdrawalStatus.Completed, updated_at := now })
        :: s.withdrawals) wAddr = some
        { w with status := WithdrawalStatus.Completed, updated_at := now } := by
      simp [alookup_cons]
    exact ⟨complete_fiat_withdrawal_requires_pending hlook (by simp),
      cancel_fiat_withdrawal_requires_pending hlook (by simp)⟩
  · intro s now now' signer signer' wAddr vta tta vta' tta' s₁ hok1
    obtain ⟨_, w, _, _, _, _, _, _, _, _, _, _, _, _, _, _, hs₁⟩ :=
      cancel_fiat_withdrawal_inv hok1
    subst hs₁
    have hlook : alookup ((wAddr,
        { w with status := WithdrawalStatus.Cancelled, updated_at := now })
        :: s.withdrawals) wAddr = some
        { w with status := WithdrawalStatus.Cancelled, updated_at := now } := by
      simp [alookup_cons]
    exact ⟨complete_fiat_withdrawal_requires_pending hlook (by simp),
      cancel_fiat_withdrawal_requires_pending hlook (by simp)⟩

/-! ### Concrete scenario for the C2 witness: a Completed withdrawal. -/

def c2w : FiatWithdrawal :=
  ⟨Addr.ext 1, Addr.ext 2, 500, "w1", WithdrawalStatus.Completed, 0, 1, 0⟩

def c2s : Chain :=
  { config := some ⟨Addr.ext 0, 250⟩
    profiles := []
    vaults := []
    whitelist := []
    deposits := []
    withdrawals := [(Addr.withdrawalPda (Addr.ext 1) (Addr.ext 2) "w1", c2w)]
    tokenAccounts := []
    mints := [Addr.ext 2] }

/-- A Pending withdrawal for the sequential part of the C2 witness. -/
def c2pw : FiatWithdrawal :=
  ⟨Addr.ext 1, Addr.ext 2, 500, "w2", WithdrawalStatus.Pending, 0, 0, 0⟩

def c2ps : Chain :=
  { config := some ⟨Addr.ext 0, 250⟩
    profiles := []
    vaults := []
    whitelist := []
    deposits := []
    withdrawals := [(Addr.withdrawalPda (Addr.ext 1) (Addr.ext 2) "w2", c2pw)]
    tokenAccounts := []
    mints := [Addr.ext 2] }

def c2ps1 : Chain :=
  (complete_fiat_withdrawal c2ps (Addr.ext 0)
    (Addr.withdrawalPda (Addr.ext 1) (Addr.ext 2) "w2") 3).toOption.getD c2ps

/-- Witness for C2: a second completion attempt on an already Completed
withdrawal fails with exactly `InvalidWithdrawalStatus`; and after a
concrete successful completion of a Pending withdrawal, neither a second
completion nor a cancellation of the same record can succeed. -/
theorem pending_exits_at_most_once_witness :
    complete_fiat_withdrawal c2s (Addr.ext 0)
      (Addr.withdrawalPda (Addr.ext 1) (Addr.ext 2) "w1") 3 =
      Except.error (ProgErr.program StateFiError.InvalidWithdrawalStatus) ∧
    complete_fiat_withdrawal c2ps1 (Addr.ext 0)
      (Addr.withdrawalPda (Addr.ext 1) (Addr.ext 2) "w2") 4 ≠
      Except.ok c2ps1 ∧
    cancel_fiat_withdrawal c2ps1 (Addr.ext 0)
      (Addr.withdrawalPda (Addr.ext 1) (Addr.ext 2) "w2") (Addr.ext 10)
      (Addr.ext 11) 4 ≠ Except.ok c2ps1 :=
  ⟨pending_exits_at_most_once.2.2.2.2.1 c2s 3 (Addr.ext 0)
    (Addr.withdrawalPda (Addr.ext 1) (Addr.ext 2) "w1") ⟨Addr.ext 0, 250⟩ c2w
    (by rfl) (by rfl) (by rfl) (by decide),
   (pending_exits_at_most_once.2.2.2.2.2.2.2.2.1 c2ps 3 4 (Addr.ext 0)
    (Addr.ext 0) (Addr.withdrawalPda (Addr.ext 1) (Addr.ext 2) "w2")
    (Addr.ext 10) (Addr.ext 11) c2ps1 (by rfl)).1 c2ps1,
   (pending_exits_at_most_once.2.2.2.2.2.2.2.2.1 c2ps 3 4 (Addr.ext 0)
    (Addr.ext 0) (Addr.withdrawalPda (Addr.ext 1) (Addr.ext 2) "w2")
    (Addr.ext 10) (Addr.ext 11) c2ps1 (by rfl)).2 c2ps1⟩

/-- Claim C3: `initiate_fiat_withdrawal` immediately followed by
`cancel_fiat_withdrawal` on the created record restores the vault token
account and the treasury token account to exactly their pre-initiation
records; the refund moves the originally escrowed `fiat_withdrawal.amount`
(the created record carries `amount = a` and ends Cancelled). -/
theorem withdraw_cancel_round_trip {s s₁ s₂ : Chain} {user mint vta tta signer : Addr}
    {a : Nat} {ref : String} {now₁ now₂ : Int} {vAcc tAcc : TokenAccount}
    (hv : alookup s.tokenAccounts vta = some vAcc)
    (ht : alookup s.tokenAccounts tta = some tAcc)
    (h1 : initiate_fiat_withdrawal s user mint vta tta a ref now₁ = Except.ok s₁)
    (h2 : cancel_fiat_withdrawal s₁ signer (Addr.withdrawalPda user mint ref)
      vta tta now₂ = Except.ok s₂) :
    alookup s₂.tokenAccounts vta = some vAcc ∧
    alookup s₂.tokenAccounts tta = some tAcc ∧
    ∃ w, alookup s₂.withdrawals (Addr.withdrawalPda user mint ref) = some w ∧
      w.amount = a ∧ w.status = WithdrawalStatus.Cancelled := by
  obtain ⟨prof, vtaAcc, ttaAcc, wl, tas1, hprof, hvaultS, hwl, hact, hmint,
    hvta, hvo, hvm, hcover, htta, htm, hfree, hamt, href, ht1, hs1⟩ :=
    initiate_fiat_withdrawal_inv h1
  rw [hv] at hvta
  obtain rfl := Option.some.inj hvta
  rw [ht] at htta
  obtain rfl := Option.some.inj htta
  obtain ⟨sa1, da1, hsa1, hda1, _, hcov1, hsh1⟩ := token_transfer_inv ht1
  rw [hv] at hsa1
  obtain rfl := Option.some.inj hsa1
  rw [ht] at hda1
  obtain rfl := Option.some.inj hda1
  obtain ⟨cfg, w, vtaAcc2, ttaAcc2, tas2, hcfg, hadm, hw, hvaultS2, hvta2,
    hvo2, hvm2, htta2, htm2, hst2, ht2, hs2⟩ := cancel_fiat_withdrawal_inv h2
  subst hs1
  simp only [alookup_cons, if_pos rfl] at hw
  obtain rfl := Option.some.inj hw
  by_cases hvt : vta = tta
  · -- vault token account and treasury are the same account: both
    -- transfers are validated self-transfers that move nothing
    rcases hsh1 with ⟨_, htas1⟩ | ⟨hne, _, _⟩
    swap
    · exact absurd hvt hne
    subst htas1
    obtain ⟨sa2, da2, hsa2, hda2, _, hcov2, hsh2⟩ := token_transfer_inv ht2
    rcases hsh2 with ⟨_, htas2⟩ | ⟨hne2, _, _⟩
    swap
    · exact absurd hvt.symm hne2
    subst htas2
    subst hs2
    refine ⟨hv, ht, ?_⟩
    refine ⟨⟨prof.owner, mint, a, ref, WithdrawalStatus.Cancelled, now₁, now₂, 0⟩,
      ?_, rfl, rfl⟩
    simp [alookup_cons]
  · -- distinct accounts: escrow then refund of the same amount
    rcases hsh1 with ⟨heq, _⟩ | ⟨_, hov1, htas1⟩
    · exact absurd heq hvt
    subst htas1
    obtain ⟨sa2, da2, hsa2, hda2, _, hcov2, hsh2⟩ := token_transfer_inv ht2
    have htv : tta ≠ vta := Ne.symm hvt
    simp only [alookup_cons, if_neg htv, if_pos rfl] at hsa2
    obtain rfl := Option.some.inj hsa2
    simp only [alookup_cons, if_pos rfl] at hda2
    obtain rfl := Option.some.inj hda2
    rcases hsh2 with ⟨heq, _⟩ | ⟨_, hov2, htas2⟩
    · exact absurd heq.symm hvt
    subst htas2
    subst hs2
    refine ⟨?_, ?_, ?_⟩
    · have hsub : vAcc.amount - a + a = vAcc.amount := by omega
      simp [alookup_cons, hvt, hsub]
    · simp [alookup_cons, htv]
    · refine ⟨⟨prof.owner, mint, a, ref, WithdrawalStatus.Cancelled, now₁, now₂, 0⟩,
        ?_, rfl, rfl⟩
      simp [alookup_cons]

/-! ### Concrete scenario for the C3 witness: vault holding exactly 500,
withdrawal of 500, then cancellation. -/

def c3vAcc : TokenAccount := ⟨Addr.vaultPda (Addr.ext 1), Addr.ext 2, 500⟩

def c3tAcc : TokenAccount := ⟨Addr.configPda, Addr.ext 2, 0⟩

def c3s : Chain :=
  { config := some ⟨Addr.ext 0, 250⟩
    profiles := [(Addr.profilePda (Addr.ext 1), ⟨Addr.ext 1, "u", "e", false, 0⟩)]
    vaults := [(Addr.vaultPda (Addr.ext 1), ⟨Addr.ext 1, 0⟩)]
    whitelist := [(Addr.whitelistPda (Addr.ext 2), ⟨Addr.ext 2, "USD", "usd", true, true, 0⟩)]
    deposits := []
    withdrawals := []
    tokenAccounts := [(Addr.ext 10, c3vAcc), (Addr.ext 11, c3tAcc)]
    mints := [Addr.ext 2] }

def c3s1 : Chain :=
  (initiate_fiat_withdrawal c3s (Addr.ext 1) (Addr.ext 2) (Addr.ext 10) (Addr.ext 11)
    500 "w1" 1).toOption.getD c3s

def c3s2 : Chain :=
  (cancel_fiat_withdrawal c3s1 (Addr.ext 0)
    (Addr.withdrawalPda (Addr.ext 1) (Addr.ext 2) "w1") (Addr.ext 10) (Addr.ext 11)
    2).toOption.getD c3s1

/-- Witness for C3: the vault account returns to 500 and the treasury to 0
after the cancel, and the cancelled record carries the escrowed 500. -/
theorem withdraw_cancel_round_trip_witness :
    alookup c3s2.tokenAccounts (Addr.ext 10) = some c3vAcc ∧
    alookup c3s2.tokenAccounts (Addr.ext 11) = some c3tAcc ∧
    ∃ w, alookup c3s2.withdrawals (Addr.withdrawalPda (Addr.ext 1) (Addr.ext 2) "w1") =
      some w ∧ w.amount = 500 ∧ w.status = WithdrawalStatus.Cancelled :=
  @withdraw_cancel_round_trip c3s c3s1 c3s2 (Addr.ext 1) (Addr.ext 2) (Addr.ext 10)
    (Addr.ext 11) (Addr.ext 0) 500 "w1" 1 2 c3vAcc c3tAcc
    (by rfl) (by rfl) (by rfl) (by rfl)

/-- Claim C4: every instruction of the surface is atomic — in this model a
failing instruction returns `Except.error` and commits nothing, mirroring
the ledger's transaction rollback.  The substantive checkable content: if
the treasury cannot cover the deposit amount (so one of the two
sub-transfers of `complete_fiat_deposit` must fail), the whole completion
fails — there is no state in which the deposit was marked Completed or only
one leg of the split was paid, and the record still reads Pending. -/
theorem complete_deposit_atomic_insufficient_treasury {s : Chain} {now : Int}
    {signer depAddr vta tta ata : Addr} {cfg : ProtocolConfig} {dep : FiatDeposit}
    {tAcc : TokenAccount}
    (hcfg : s.config = some cfg) (hf : cfg.admin_fee_basis_points ≤ 10000)
    (hdep : alookup s.deposits depAddr = some dep) (h64 : dep.amount < u64Lim)
    (ht : alookup s.tokenAccounts tta = some tAcc)
    (hins : tAcc.amount < dep.amount)
    (hvt : vta ≠ tta) :
    ∀ s', complete_fiat_deposit s signer depAddr vta tta ata now ≠ Except.ok s' := by
  intro s' hok
  obtain ⟨cfg', dep', _, _, _, _, _, _, _, _, hcfg', hadm, hdep', hvault, hvta',
    hvo, hvm, htta', htm, hata', ham, hao, hst, hvow, hfee, hua, ht1, hcase, hs'⟩ :=
    complete_fiat_deposit_inv hok
  rw [hcfg] at hcfg'
  obtain rfl := Option.some.inj hcfg'
  rw [hdep] at hdep'
  obtain rfl := Option.some.inj hdep'
  rw [ht] at htta'
  obtain rfl := Option.some.inj htta'
  rw [fee_amount_calc_eq h64 hf] at hfee
  obtain rfl := Option.some.inj hfee
  obtain ⟨hfle, rfl⟩ := checked_sub_u64_inv hua
  obtain ⟨sa1, da1, hsa1, hda1, _, hcov1, hsh1⟩ := token_transfer_inv ht1
  rw [ht] at hsa1
  obtain rfl := Option.some.inj hsa1
  have htv : tta ≠ vta := Ne.symm hvt
  rcases hsh1 with ⟨heq, _⟩ | ⟨_, _, htas1⟩
  · exact absurd heq htv
  subst htas1
  rcases hcase with ⟨hfpos, ht2⟩ | ⟨hfz, _⟩
  · obtain ⟨sa2, da2, hsa2, hda2, _, hcov2, _⟩ := token_transfer_inv ht2
    simp only [alookup_cons, if_pos rfl] at hsa2
    obtain rfl := Option.some.inj hsa2
    -- fee ≤ treasury - user_amount and user_amount ≤ treasury force
    -- amount ≤ treasury, contradicting the shortfall
    simp at hcov2
    omega
  · omega

/-! ### Concrete scenario for the C4 witness: deposit of 10000 against a
treasury holding only 9999. -/

def c4dep : FiatDeposit :=
  ⟨Addr.ext 1, Addr.ext 2, 10000, "r1", DepositStatus.Pending, 0, 0, 0⟩

def c4tAcc : TokenAccount := ⟨Addr.configPda, Addr.ext 2, 9999⟩

def c4s : Chain :=
  { config := some ⟨Addr.ext 0, 250⟩
    profiles := []
    vaults := [(Addr.vaultPda (Addr.ext 1), ⟨Addr.ext 1, 0⟩)]
    whitelist := []
    deposits := [(Addr.depositPda (Addr.ext 1) "r1", c4dep)]
    withdrawals := []
    tokenAccounts := [(Addr.ext 10, ⟨Addr.vaultPda (Addr.ext 1), Addr.ext 2, 0⟩),
                      (Addr.ext 11, c4tAcc),
                      (Addr.ext 12, ⟨Addr.ext 0, Addr.ext 2, 0⟩)]
    mints := [Addr.ext 2] }

/-- Witness for C4: with treasury 9999 < amount 10000 the completion cannot
succeed. -/
theorem complete_deposit_atomic_insufficient_treasury_witness :
    complete_fiat_deposit c4s (Addr.ext 0) (Addr.depositPda (Addr.ext 1) "r1")
      (Addr.ext 10) (Addr.ext 11) (Addr.ext 12) 5 ≠ Except.ok c4s :=
  @complete_deposit_atomic_insufficient_treasury c4s 5 (Addr.ext 0)
    (Addr.depositPda (Addr.ext 1) "r1") (Addr.ext 10) (Addr.ext 11) (Addr.ext 12)
    ⟨Addr.ext 0, 250⟩ c4dep c4tAcc
    (by rfl) (by decide) (by rfl) (by decide) (by rfl) (by decide) (by decide)
    c4s

/-- Claim C7: deposit records are addressed by the (signer, reference_id)
pair.  First conjunct: a second `initiate_fiat_deposit` with an identical
(user, reference_id) pair can never succeed, because the derived record
slot is already occupied.  Second conjunct: two calls by the same user
with different reference_ids are independent — if each would succeed on
its own from state `s`, then running them in sequence succeeds and leaves
both Pending records present, each under its own derived address. -/
theorem deposit_addressing_by_user_and_reference :
    (∀ (s : Chain) (now : Int) (user profileAddr mint wlAddr uta tta : Addr)
       (amount : Nat) (ref : String) (d : FiatDeposit),
       alookup s.deposits (Addr.depositPda user ref) = some d →
       ∀ s', initiate_fiat_deposit s user profileAddr mint wlAddr uta tta amount
         ref now ≠ Except.ok s') ∧
    (∀ (s : Chain) (now : Int) (user p1 m1 w1 u1 t1 p2 m2 w2 u2 t2 : Addr)
       (a1 a2 : Nat) (ref1 ref2 : String) (s₁ s₂ : Chain),
       ref1 ≠ ref2 →
       initiate_fiat_deposit s user p1 m1 w1 u1 t1 a1 ref1 now = Except.ok s₁ →
       initiate_fiat_deposit s user p2 m2 w2 u2 t2 a2 ref2 now = Except.ok s₂ →
       ∃ s₃, initiate_fiat_deposit s₁ user p2 m2 w2 u2 t2 a2 ref2 now =
           Except.ok s₃ ∧
         (∃ d1, alookup s₃.deposits (Addr.depositPda user ref1) = some d1 ∧
           d1.amount = a1 ∧ d1.status = DepositStatus.Pending) ∧
         (∃ d2, alookup s₃.deposits (Addr.depositPda user ref2) = some d2 ∧
           d2.amount = a2 ∧ d2.status = DepositStatus.Pending)) := by
  constructor
  · intro s now user profileAddr mint wlAddr uta tta amount ref d hd s' hok
    obtain ⟨prof, _, _, _, hfree, _, _, _, _, _⟩ := initiate_fiat_deposit_inv hok
    rw [hd] at hfree
    cases hfree
  · intro s now user p1 m1 w1 u1 t1 p2 m2 w2 u2 t2 a1 a2 ref1 ref2 s₁ s₂ hne h1 h2
    obtain ⟨prof1, hprof1, hmint1, _, hfree1, _, _, hamt1, href1, hs1⟩ :=
      initiate_fiat_deposit_inv h1
    obtain ⟨prof2, hprof2, hmint2, hwlS2, hfree2, hutaS2, httaS2, hamt2, href2, _⟩ :=
      initiate_fiat_deposit_inv h2
    obtain ⟨wl2, hwl2⟩ := Option.isSome_iff_exists.mp hwlS2
    obtain ⟨uAcc2, huta2⟩ := Option.isSome_iff_exists.mp hutaS2
    obtain ⟨tAcc2, htta2⟩ := Option.isSome_iff_exists.mp httaS2
    subst hs1
    have hkey : Addr.depositPda user ref2 ≠ Addr.depositPda user ref1 := by
      intro hcontra
      injection hcontra with _ hr
      exact hne hr.symm
    have hfree2' : alookup ({ s with deposits := (Addr.depositPda user ref1,
        ⟨prof1.owner, m1, a1, ref1, DepositStatus.Pending, now, now, 0⟩)
        :: s.deposits } : Chain).deposits (Addr.depositPda user ref2) = none := by
      simp [alookup_cons, hkey]
      exact hfree2
    have hok3 := @initiate_fiat_deposit_runs
      { s with deposits := (Addr.depositPda user ref1,
        ⟨prof1.owner, m1, a1, ref1, DepositStatus.Pending, now, now, 0⟩)
        :: s.deposits }
      now user p2 m2 w2 u2 t2 a2 ref2 prof2 wl2 uAcc2 tAcc2
      hprof2 hmint2 hwl2 hfree2' huta2 htta2 hamt2 href2
    refine ⟨_, hok3, ?_, ?_⟩
    · refine ⟨⟨prof1.owner, m1, a1, ref1, DepositStatus.Pending, now, now, 0⟩,
        ?_, rfl, rfl⟩
      simp [alookup_cons, Ne.symm hkey]
    · refine ⟨⟨prof2.owner, m2, a2, ref2, DepositStatus.Pending, now, now, 0⟩,
        ?_, rfl, rfl⟩
      simp [alookup_cons]

/-! ### Concrete scenario for the C7 witness. -/

def c7s : Chain :=
  { config := some ⟨Addr.ext 0, 250⟩
    profiles := [(Addr.profilePda (Addr.ext 1), ⟨Addr.ext 1, "u", "e", false, 0⟩)]
    vaults := []
    whitelist := [(Addr.whitelistPda (Addr.ext 2), ⟨Addr.ext 2, "USD", "usd", true, true, 0⟩)]
    deposits := []
    withdrawals := []
    tokenAccounts := [(Addr.ext 10, ⟨Addr.ext 1, Addr.ext 2, 0⟩),
                      (Addr.ext 11, ⟨Addr.configPda, Addr.ext 2, 0⟩)]
    mints := [Addr.ext 2] }

def c7s1 : Chain :=
  (initiate_fiat_deposit c7s (Addr.ext 1) (Addr.profilePda (Addr.ext 1)) (Addr.ext 2)
    (Addr.whitelistPda (Addr.ext 2)) (Addr.ext 10) (Addr.ext 11) 100 "r1" 0).toOption.getD c7s

def c7s2 : Chain :=
  (initiate_fiat_deposit c7s (Addr.ext 1) (Addr.profilePda (Addr.ext 1)) (Addr.ext 2)
    (Addr.whitelistPda (Addr.ext 2)) (Addr.ext 10) (Addr.ext 11) 200 "r2" 0).toOption.getD c7s

/-- Witness for C7: deposits "r1" then "r2" by the same user both commit,
leaving two independent Pending records. -/
theorem deposit_addressing_by_user_and_reference_witness :
    ∃ s₃, initiate_fiat_deposit c7s1 (Addr.ext 1) (Addr.profilePda (Addr.ext 1))
        (Addr.ext 2) (Addr.whitelistPda (Addr.ext 2)) (Addr.ext 10) (Addr.ext 11)
        200 "r2" 0 = Except.ok s₃ ∧
      (∃ d1, alookup s₃.deposits (Addr.depositPda (Addr.ext 1) "r1") = some d1 ∧
        d1.amount = 100 ∧ d1.status = DepositStatus.Pending) ∧
      (∃ d2, alookup s₃.deposits (Addr.depositPda (Addr.ext 1) "r2") = some d2 ∧
        d2.amount = 200 ∧ d2.status = DepositStatus.Pending) :=
  deposit_addressing_by_user_and_reference.2 c7s 0 (Addr.ext 1)
    (Addr.profilePda (Addr.ext 1)) (Addr.ext 2) (Addr.whitelistPda (Addr.ext 2))
    (Addr.ext 10) (Addr.ext 11)
    (Addr.profilePda (Addr.ext 1)) (Addr.ext 2) (Addr.whitelistPda (Addr.ext 2))
    (Addr.ext 10) (Addr.ext 11) 100 200 "r1" "r2" c7s1 c7s2
    (by decide) (by rfl) (by rfl)

/-- Claim C10: `initiate_fiat_deposit` accepts any existing
`TokenWhitelist` account — there is no `is_active` constraint and no seeds
constraint tying it to the supplied mint (unlike `initiate_fiat_withdrawal`).
With the other preconditions met (amount positive, reference at most 100,
free (user, reference) slot, existing profile/mint/token accounts), the
deposit is created for any whitelist record `wl`, with no hypothesis on
`wl.is_active` or `wl.mint`. -/
theorem initiate_deposit_ignores_whitelist_state {s : Chain} {now : Int}
    {user profileAddr mint wlAddr uta tta : Addr} {amount : Nat} {ref : String}
    {prof : UserProfile} {wl : TokenWhitelist} {uAcc tAcc : TokenAccount}
    (hprof : alookup s.profiles profileAddr = some prof)
    (hmint : mint ∈ s.mints)
    (hwl : alookup s.whitelist wlAddr = some wl)
    (hfree : alookup s.deposits (Addr.depositPda user ref) = none)
    (huta : alookup s.tokenAccounts uta = some uAcc)
    (htta : alookup s.tokenAccounts tta = some tAcc)
    (hamt : 0 < amount) (href : ref.length ≤ 100) :
    initiate_fiat_deposit s user profileAddr mint wlAddr uta tta amount ref now =
      Except.ok { s with deposits := (Addr.depositPda user ref,
        ⟨prof.owner, mint, amount, ref, DepositStatus.Pending, now, now, 0⟩)
        :: s.deposits } :=
  initiate_fiat_deposit_runs hprof hmint hwl hfree huta htta hamt href

/-! ### Concrete scenario for the C10 witness: the whitelist record passed
is inactive and refers to a different mint than the deposit's. -/

def c10wl : TokenWhitelist := ⟨Addr.ext 9, "OTH", "other", false, false, 0⟩

def c10s : Chain :=
  { config := some ⟨Addr.ext 0, 250⟩
    profiles := [(Addr.profilePda (Addr.ext 1), ⟨Addr.ext 1, "u", "e", false, 0⟩)]
    vaults := []
    whitelist := [(Addr.whitelistPda (Addr.ext 9), c10wl)]
    deposits := []
    withdrawals := []
    tokenAccounts := [(Addr.ext 10, ⟨Addr.ext 1, Addr.ext 2, 0⟩),
                      (Addr.ext 11, ⟨Addr.configPda, Addr.ext 2, 0⟩)]
    mints := [Addr.ext 2, Addr.ext 9] }

/-- Witness for C10: the deposit for mint `ext 2` is created even though
the supplied whitelist record is inactive and describes mint `ext 9`. -/
theorem initiate_deposit_ignores_whitelist_state_witness :
    initiate_fiat_deposit c10s (Addr.ext 1) (Addr.profilePda (Addr.ext 1))
      (Addr.ext 2) (Addr.whitelistPda (Addr.ext 9)) (Addr.ext 10) (Addr.ext 11)
      100 "r1" 0 =
      Except.ok { c10s with deposits := (Addr.depositPda (Addr.ext 1) "r1",
        ⟨(⟨Addr.ext 1, "u", "e", false, 0⟩ : UserProfile).owner, Addr.ext 2, 100,
         "r1", DepositStatus.Pending, 0, 0, 0⟩) :: c10s.deposits } :=
  @initiate_deposit_ignores_whitelist_state c10s 0 (Addr.ext 1)
    (Addr.profilePda (Addr.ext 1)) (Addr.ext 2) (Addr.whitelistPda (Addr.ext 9))
    (Addr.ext 10) (Addr.ext 11) 100 "r1" ⟨Addr.ext 1, "u", "e", false, 0⟩ c10wl
    ⟨Addr.ext 1, Addr.ext 2, 0⟩ ⟨Addr.configPda, Addr.ext 2, 0⟩
    (by rfl) (by decide) (by rfl) (by rfl) (by rfl) (by rfl) (by decide) (by decide)

/-- Claim C9: in every state reachable from a program-empty initial state
through the instruction surface, no `FiatDeposit` record has status
`Rejected`: `initiate_fiat_deposit` only writes Pending and
`complete_fiat_deposit` only writes Completed, and no other instruction
touches deposit records, so `DepositStatus.Rejected` is a dead state. -/
theorem no_deposit_ever_rejected {s : Chain} (h : Reachable s) :
    ∀ k d, alookup s.deposits k = some d → d.status ≠ DepositStatus.Rejected := by
  induction h with
  | init tas mints =>
    intro k d hk
    simp [alookup] at hk
  | step s s' now op hs hstep ih =>
    intro k d hk
    rcases step_deposits_effect hstep with heq | ⟨k0, d0, hfree, hpend, heq⟩ |
      ⟨k0, d0, hlook, hpend, heq⟩
    · rw [heq] at hk
      exact ih k d hk
    · rw [heq, alookup_cons] at hk
      by_cases hkk : k = k0
      · rw [if_pos hkk] at hk
        obtain rfl := Option.some.inj hk
        rw [hpend]
        intro hcontra
        cases hcontra
      · rw [if_neg hkk] at hk
        exact ih k d hk
    · rw [heq, alookup_cons] at hk
      by_cases hkk : k = k0
      · rw [if_pos hkk] at hk
        obtain rfl := Option.some.inj hk
        intro hcontra
        cases hcontra
      · rw [if_neg hkk] at hk
        exact ih k d hk

/-! ### Concrete reachable run for the C9 witness: bootstrap, profile,
whitelist, then one deposit. -/

def c9s0 : Chain :=
  ⟨none, [], [], [], [], [],
   [(Addr.ext 10, ⟨Addr.ext 1, Addr.ext 2, 0⟩),
    (Addr.ext 11, ⟨Addr.configPda, Addr.ext 2, 0⟩)],
   [Addr.ext 2]⟩

def c9s1 : Chain :=
  (step c9s0 0 (Op.initialize_protocol (Addr.ext 0) 250)).toOption.getD c9s0

def c9s2 : Chain :=
  (step c9s1 0 (Op.create_user_profile (Addr.ext 1) "u" "e")).toOption.getD c9s1

def c9s3 : Chain :=
  (step c9s2 0 (Op.whitelist_token (Addr.ext 0) (Addr.ext 2) "USD" "usd" true)).toOption.getD c9s2

def c9s4 : Chain :=
  (step c9s3 0 (Op.initiate_fiat_deposit (Addr.ext 1) (Addr.profilePda (Addr.ext 1))
    (Addr.ext 2) (Addr.whitelistPda (Addr.ext 2)) (Addr.ext 10) (Addr.ext 11)
    10000 "r1")).toOption.getD c9s3

/-- Witness for C9: the deposit record reached through a concrete
bootstrap-and-deposit run is not Rejected. -/
theorem no_deposit_ever_rejected_witness :
    (⟨Addr.ext 1, Addr.ext 2, 10000, "r1", DepositStatus.Pending, 0, 0, 0⟩ :
      FiatDeposit).status ≠ DepositStatus.Rejected :=
  no_deposit_ever_rejected
    (Reachable.step c9s3 c9s4 0
      (Op.initiate_fiat_deposit (Addr.ext 1) (Addr.profilePda (Addr.ext 1))
        (Addr.ext 2) (Addr.whitelistPda (Addr.ext 2)) (Addr.ext 10) (Addr.ext 11)
        10000 "r1")
      (Reachable.step c9s2 c9s3 0
        (Op.whitelist_token (Addr.ext 0) (Addr.ext 2) "USD" "usd" true)
        (Reachable.step c9s1 c9s2 0
          (Op.create_user_profile (Addr.ext 1) "u" "e")
          (Reachable.step c9s0 c9s1 0
            (Op.initialize_protocol (Addr.ext 0) 250)
            (Reachable.init
              [(Addr.ext 10, ⟨Addr.ext 1, Addr.ext 2, 0⟩),
               (Addr.ext 11, ⟨Addr.configPda, Addr.ext 2, 0⟩)]
              [Addr.ext 2])
            (by rfl))
          (by rfl))
        (by rfl))
      (by rfl))
    (Addr.depositPda (Addr.ext 1) "r1")
    ⟨Addr.ext 1, Addr.ext 2, 10000, "r1", DepositStatus.Pending, 0, 0, 0⟩
    (by rfl)

end StateFi

